import Mathlib

/-!
# SmartArrayMemoryManager: a shallow embedding of `MemoryManager`

The C++ class `MemoryManager` (src/src/SmartArrayMemoryManager.{h,cpp}) keeps

* `virtualPages_  : vector<void*>`, the virtual page table,
* `physicalPages_ : vector<void*>`, every page ever obtained from `mmap`,
* `arrMetadata_   : unordered_map<void*, ArrMetadata>`, keyed by slot address.

Modelling decisions.

* A pointer is a 64-bit machine word, a `Nat` below `2 ^ 64`; `nullptr` is `0`
  and `MAP_FAILED` is `(void*)-1`, the word `2 ^ 64 - 1`.  `size_t`
  arithmetic and `char*` arithmetic wrap modulo `2 ^ 64`.
* The only call into the operating system is `mmap`.  Every public operation
  calls it at most once, so each operation takes the word that this call
  would return (`mmapRet`) as an extra argument.
* A `void*`-returning method returns a pair: the returned pointer and the
  state of the manager after the call.
* The bytes stored in the pages are not part of the state: no public
  operation reads them.  The single `memcpy` (line 165 of `resolveConflict`)
  copies `SLOT_SIZE` bytes between two equal addresses, at slot `slotId` of the
  page just mapped.  For `slotId < SLOTS_PER_PAGE` these bytes lie inside that
  page and the copy has no effect; for a larger `slotId` they lie outside it
  and the real call may fault there.  The model has no such outcome, so what
  is stated about a conflict resolution that acquires a page is stated for
  slot ids of the page.  `std::bad_alloc` is not modelled.
-/

namespace SmartArray

/-! ## Constants (SmartArrayMemoryManager.h, lines 16-19) -/

/-- Source: `constexpr size_t PAGE_SIZE = 4096`. -/
def PAGE_SIZE : Nat := 4096

/-- Source: `constexpr size_t SLOT_SIZE = 8`. -/
def SLOT_SIZE : Nat := 8

/-- Source: `constexpr size_t SLOTS_PER_PAGE = PAGE_SIZE / SLOT_SIZE`. -/
def SLOTS_PER_PAGE : Nat := PAGE_SIZE / SLOT_SIZE

/-- Source: `constexpr size_t INITIAL_VIRTUAL_PAGES = 1024`. -/
def INITIAL_VIRTUAL_PAGES : Nat := 1024

/-- Number of values of a 64-bit word (`size_t`, `void*`). -/
def WORD : Nat := 2 ^ 64

/-- The null pointer. -/
def nullptr : Nat := 0

/-- The constant `MAP_FAILED`, that is `(void*) -1`. -/
def MAP_FAILED : Nat := WORD - 1

/-! ## Data model -/

/-- Source: `struct ArrMetadata { uint16_t virtualPageId : 15; bool occupiedFlg; }`. -/
structure ArrMetadata where
  virtualPageId : Nat
  occupiedFlg : Bool
  deriving DecidableEq, Repr

/-- Value-initialised record, what `unordered_map::operator[]` inserts for a
missing key; also the literal `{0, false}`. -/
def ArrMetadata.default : ArrMetadata := ⟨0, false⟩

/-- The conversion `static_cast<uint16_t>(virtualPageId)` followed by the store
into the 15-bit field. -/
def toOwnerField (virtualPageId : Nat) : Nat := (virtualPageId % 2 ^ 16) % 2 ^ 15

/-- The type `unordered_map<void*, ArrMetadata>`: a finite partial map, `none` for a key
that is not in the map. -/
abbrev MetaMap := Nat → Option ArrMetadata

/-- Source: `m.find(key)`: `none` stands for `m.end()`. -/
def MetaMap.find (m : MetaMap) (key : Nat) : Option ArrMetadata := m key

/-- Source: `m[key] = r`, the assignment through `operator[]`. -/
def MetaMap.assign (m : MetaMap) (key : Nat) (r : ArrMetadata) : MetaMap :=
  fun k => if k = key then some r else m k

/-- Source: `m[key]` used as an rvalue: returns the record and the map, in which the
key has been inserted with a value-initialised record when it was missing. -/
def MetaMap.index (m : MetaMap) (key : Nat) : ArrMetadata × MetaMap :=
  match m key with
  | some r => (r, m)
  | none => (ArrMetadata.default, MetaMap.assign m key ArrMetadata.default)

/-- The private state of `class MemoryManager`. -/
structure MemoryManager where
  virtualPages : List Nat
  physicalPages : List Nat
  arrMetadata : MetaMap

/-- Source: `static_cast<char*>(physicalPage) + offset`. -/
def ptrAdd (physicalPage offset : Nat) : Nat := (physicalPage + offset) % WORD

/-- Source: `size_t offset = slotId * SLOT_SIZE`. -/
def slotOffset (slotId : Nat) : Nat := (slotId * SLOT_SIZE) % WORD

/-- Source: `vector::resize(n, nullptr)` for `n` at least the current size. -/
def resizeNull (v : List Nat) (n : Nat) : List Nat :=
  v ++ List.replicate (n - v.length) nullptr

/-! ## Operations (SmartArrayMemoryManager.cpp) -/

/-- Method `MemoryManager::allocatePhysicalPage` (lines 33-53).  `mmapRet` is the word
returned by `mmap`. -/
def MemoryManager.allocatePhysicalPage (mm : MemoryManager) (mmapRet : Nat) :
    Nat × MemoryManager :=
  let page := mmapRet
  if page = MAP_FAILED then
    (nullptr, mm)
  else
    (page, { mm with physicalPages := mm.physicalPages ++ [page] })

/-- Method `MemoryManager::mapVirtualPageToPhysicalPage` (lines 56-61). -/
def MemoryManager.mapVirtualPageToPhysicalPage (mm : MemoryManager)
    (virtualPageId physicalPage : Nat) : MemoryManager :=
  let vp :=
    if virtualPageId ≥ mm.virtualPages.length then
      resizeNull mm.virtualPages (virtualPageId + 1)
    else mm.virtualPages
  { mm with virtualPages := vp.set virtualPageId physicalPage }

/-- Method `MemoryManager::resolveConflict` (lines 142-174).  The `throw` of line 153
is caught by the handler of line 171, which only prints: the function then
returns with the state it has built so far.  `oldPhysicalPage` is read from
the table on line 158, after the rebinding of line 155.  The `memcpy` of line
165 is left out: it copies between two equal addresses, inside the new page
when `slotId < SLOTS_PER_PAGE`. -/
def MemoryManager.resolveConflict (mm : MemoryManager)
    (virtualPageId slotId mmapRet : Nat) : MemoryManager :=
  let mm0 : MemoryManager :=
    if virtualPageId ≥ mm.virtualPages.length then
      { mm with virtualPages := resizeNull mm.virtualPages (virtualPageId + 1) }
    else mm
  let r := mm0.allocatePhysicalPage mmapRet
  let newPhysicalPage := r.1
  let mm1 := r.2
  if newPhysicalPage = nullptr then
    mm1
  else
    let mm2 := mm1.mapVirtualPageToPhysicalPage virtualPageId newPhysicalPage
    let oldPhysicalPage := mm2.virtualPages.getD virtualPageId nullptr
    let offset := slotOffset slotId
    let oldSlotAddress := ptrAdd oldPhysicalPage offset
    let newSlotAddress := ptrAdd newPhysicalPage offset
    -- arrMetadata_[newSlotAddress] = arrMetadata_[oldSlotAddress];
    let rd := MetaMap.index mm2.arrMetadata oldSlotAddress
    let wr := MetaMap.index rd.2 newSlotAddress
    let md1 := MetaMap.assign wr.2 newSlotAddress rd.1
    -- arrMetadata_[oldSlotAddress] = {0, false};
    let md2 := MetaMap.assign md1 oldSlotAddress ⟨0, false⟩
    { mm2 with arrMetadata := md2 }

/-- Method `MemoryManager::allocateSlot` (lines 64-94). -/
def MemoryManager.allocateSlot (mm : MemoryManager)
    (virtualPageId slotId mmapRet : Nat) : Nat × MemoryManager :=
  if virtualPageId ≥ mm.virtualPages.length then
    (nullptr, mm)
  else
    let physicalPage := mm.virtualPages.getD virtualPageId nullptr
    if physicalPage = nullptr then
      (nullptr, mm)
    else
      let offset := slotOffset slotId
      let slotAddress := ptrAdd physicalPage offset
      let rd := MetaMap.index mm.arrMetadata slotAddress
      let mm1 : MemoryManager := { mm with arrMetadata := rd.2 }
      if rd.1.occupiedFlg then
        let mm2 := mm1.resolveConflict virtualPageId slotId mmapRet
        let physicalPage2 := mm2.virtualPages.getD virtualPageId nullptr
        let slotAddress2 := ptrAdd physicalPage2 offset
        (slotAddress2,
          { mm2 with arrMetadata :=
              MetaMap.assign mm2.arrMetadata slotAddress2 ⟨toOwnerField virtualPageId, true⟩ })
      else
        (slotAddress,
          { mm1 with arrMetadata :=
              MetaMap.assign mm1.arrMetadata slotAddress ⟨toOwnerField virtualPageId, true⟩ })

/-- Method `MemoryManager::getSlot` (lines 97-139). -/
def MemoryManager.getSlot (mm : MemoryManager)
    (virtualPageId slotId mmapRet : Nat) : Nat × MemoryManager :=
  if virtualPageId ≥ mm.virtualPages.length then
    (nullptr, mm)
  else
    let physicalPage := mm.virtualPages.getD virtualPageId nullptr
    if physicalPage = nullptr then
      (nullptr, mm)
    else
      let offset := slotOffset slotId
      let slotAddress := ptrAdd physicalPage offset
      match MetaMap.find mm.arrMetadata slotAddress with
      | none => (nullptr, mm)
      | some md =>
        if md.occupiedFlg && md.virtualPageId != virtualPageId then
          let mm2 := mm.resolveConflict virtualPageId slotId mmapRet
          let physicalPage2 := mm2.virtualPages.getD virtualPageId nullptr
          let slotAddress2 := ptrAdd physicalPage2 offset
          match MetaMap.find mm2.arrMetadata slotAddress2 with
          | some md2 => if md2.occupiedFlg then (slotAddress2, mm2) else (nullptr, mm2)
          | none => (nullptr, mm2)
        else
          if md.occupiedFlg then (slotAddress, mm) else (nullptr, mm)

/-- The state of the members before the constructor body runs: two empty
vectors and an empty map. -/
def MemoryManager.empty : MemoryManager :=
  { virtualPages := [], physicalPages := [], arrMetadata := fun _ => none }

/-- Method `MemoryManager::MemoryManager()` (lines 12-18): one call of
`allocatePhysicalPage`, then the loop over `i < INITIAL_VIRTUAL_PAGES`. -/
def MemoryManager.init (mmapRet : Nat) : MemoryManager :=
  let r := MemoryManager.empty.allocatePhysicalPage mmapRet
  let initialPhysicalPage := r.1
  (List.range INITIAL_VIRTUAL_PAGES).foldl
    (fun mm i => mm.mapVirtualPageToPhysicalPage i initialPhysicalPage) r.2

/-- Method `getPhysicalPages()` (header, lines 68-70). -/
def MemoryManager.getPhysicalPages (mm : MemoryManager) : List Nat := mm.physicalPages


/-! ## The environment and the reachable states -/

/-- The flag `arrMetadata_[a].occupiedFlg` as it is read on line 81: a key that
is not in the map reads as the value-initialised record, whose flag is
`false`. -/
def MetaMap.occupied (m : MetaMap) (a : Nat) : Bool :=
  match m a with
  | some r => r.occupiedFlg
  | none => false

/-- A successful `mmap(nullptr, PAGE_SIZE, ..., MAP_PRIVATE | MAP_ANONYMOUS, -1, 0)`:
the word returned is not null, is page aligned, the page lies inside the
address space, and it is none of the pages still mapped (the manager unmaps
pages in its destructor only, so every tracked page is still mapped). -/
def FreshPage (mm : MemoryManager) (p : Nat) : Prop :=
  p ≠ nullptr ∧ p % PAGE_SIZE = 0 ∧ p + PAGE_SIZE ≤ WORD ∧ p ∉ mm.physicalPages

instance (mm : MemoryManager) (p : Nat) : Decidable (FreshPage mm p) := by
  unfold FreshPage; infer_instance

/-- What `mmap` may return: `MAP_FAILED`, or a fresh page. -/
def MmapContract (mm : MemoryManager) (r : Nat) : Prop :=
  r = MAP_FAILED ∨ FreshPage mm r

instance (mm : MemoryManager) (p : Nat) : Decidable (MmapContract mm p) := by
  unfold MmapContract; infer_instance

/-- The states of a manager that a program can observe: the state left by the
constructor, and every state left by a call of one of the two public methods,
with arbitrary arguments, the operating system keeping to `MmapContract`. -/
inductive Reachable : MemoryManager → Prop
  | init (mmapRet : Nat) :
      MmapContract MemoryManager.empty mmapRet → Reachable (MemoryManager.init mmapRet)
  | allocateSlot (mm : MemoryManager) (virtualPageId slotId mmapRet : Nat) :
      Reachable mm → MmapContract mm mmapRet →
      Reachable (mm.allocateSlot virtualPageId slotId mmapRet).2
  | getSlot (mm : MemoryManager) (virtualPageId slotId mmapRet : Nat) :
      Reachable mm → MmapContract mm mmapRet →
      Reachable (mm.getSlot virtualPageId slotId mmapRet).2

/-- A call of a public method, with the word `mmap` returns if it is called. -/
inductive Call where
  | allocateSlot (virtualPageId slotId mmapRet : Nat)
  | getSlot (virtualPageId slotId mmapRet : Nat)
  deriving DecidableEq, Repr

/-- The slot id passed to a call. -/
def Call.slotId : Call → Nat
  | .allocateSlot _ s _ => s
  | .getSlot _ s _ => s

/-- The word `mmap` returns during a call. -/
def Call.mmapRet : Call → Nat
  | .allocateSlot _ _ m => m
  | .getSlot _ _ m => m

/-- Runs one call: the pointer it returns and the state it leaves. -/
def Call.exec (mm : MemoryManager) : Call → Nat × MemoryManager
  | .allocateSlot v s m => mm.allocateSlot v s m
  | .getSlot v s m => mm.getSlot v s m

/-- The state after a sequence of calls. -/
def run (mm : MemoryManager) : List Call → MemoryManager
  | [] => mm
  | c :: cs => run (c.exec mm).2 cs

/-- The log of the `allocateSlot` calls of a run: for each one, in order, the
virtual page id it was given and the pointer it returned. -/
def allocLog (mm : MemoryManager) : List Call → List (Nat × Nat)
  | [] => []
  | .allocateSlot v s m :: cs =>
      (v, (mm.allocateSlot v s m).1) :: allocLog (mm.allocateSlot v s m).2 cs
  | .getSlot v s m :: cs => allocLog (mm.getSlot v s m).2 cs

/-- Every page acquisition of the run succeeds: each call is handed a page
that is fresh for the state the call starts from. -/
def Acquiring (mm : MemoryManager) : List Call → Prop
  | [] => True
  | c :: cs => FreshPage mm c.mmapRet ∧ Acquiring (c.exec mm).2 cs

/-- The invariant of the reachable states: the table keeps its initial size,
every bound entry of the table is a tracked page, and the tracked pages are
distinct, non-null, aligned pages of the address space. -/
structure WellFormed (mm : MemoryManager) : Prop where
  length_eq : mm.virtualPages.length = INITIAL_VIRTUAL_PAGES
  bound_tracked : ∀ i, mm.virtualPages.getD i nullptr ≠ nullptr →
    mm.virtualPages.getD i nullptr ∈ mm.physicalPages
  pages_valid : ∀ p ∈ mm.physicalPages,
    p ≠ nullptr ∧ p % PAGE_SIZE = 0 ∧ p + PAGE_SIZE ≤ WORD
  pages_nodup : mm.physicalPages.Nodup

/-- How a call may change the table and the tracked list: not at all, or by
binding `v` to the fresh page `m` and appending `m` to the tracked list. -/
def StepShape (mm mm2 : MemoryManager) (v m : Nat) : Prop :=
  (mm2.virtualPages = mm.virtualPages ∧ mm2.physicalPages = mm.physicalPages) ∨
  (FreshPage mm m ∧ v < mm.virtualPages.length ∧
    mm2.virtualPages = mm.virtualPages.set v m ∧ mm2.physicalPages = mm.physicalPages ++ [m])

/-- The predicate `Acquiring` is decidable, call by call. -/
instance Acquiring.decide : ∀ (cs : List Call) (mm : MemoryManager), Decidable (Acquiring mm cs)
  | [], _ => isTrue trivial
  | c :: cs, mm =>
    have := Acquiring.decide cs (c.exec mm).2
    inferInstanceAs (Decidable (FreshPage mm c.mmapRet ∧ Acquiring (c.exec mm).2 cs))

/-- The invariant of the runs in which every acquisition succeeds and every
slot id is below `SLOTS_PER_PAGE`.  `past` lists the calls made so far and `log`
the pointers `allocateSlot` has returned so far.

* every virtual page is bound;
* every key of the metadata map is a slot address of a tracked page;
* every non-null pointer of the log is the address of an occupied record;
* every occupied record sits at slot `t` of a tracked page, for a `t` such that
  `allocateSlot(owner, t)` is among the calls made so far. -/
structure TraceInv (mm : MemoryManager) (past : List Call) (log : List (Nat × Nat)) : Prop where
  wf : WellFormed mm
  all_bound : ∀ i, i < INITIAL_VIRTUAL_PAGES → mm.virtualPages.getD i nullptr ≠ nullptr
  keys_in_pages : ∀ a r, mm.arrMetadata a = some r →
    ∃ p ∈ mm.physicalPages, ∃ t, t < SLOTS_PER_PAGE ∧ a = p + t * SLOT_SIZE
  log_occupied : ∀ e ∈ log, e.2 ≠ nullptr → MetaMap.occupied mm.arrMetadata e.2 = true
  owners_called : ∀ a r, mm.arrMetadata a = some r → r.occupiedFlg = true →
    ∃ p ∈ mm.physicalPages, ∃ t, t < SLOTS_PER_PAGE ∧ a = p + t * SLOT_SIZE ∧
      ∃ m, Call.allocateSlot r.virtualPageId t m ∈ past

/-- The loop of Test 5 of `main.cpp` cut after `n` rounds: `allocateSlot(0, i)`
for `i < n`, `mmap` standing ready to return page 8192. -/
def fillCalls (n : Nat) : List Call :=
  (List.range n).map (fun i => Call.allocateSlot 0 i 8192)

/-- The operating system keeps to `MmapContract` throughout the run: each call
is handed `MAP_FAILED` or a page fresh for the state the call starts from. -/
def Contracted (mm : MemoryManager) : List Call → Prop
  | [] => True
  | c :: cs => MmapContract mm c.mmapRet ∧ Contracted (c.exec mm).2 cs

/-- The predicate `Contracted` is decidable, call by call. -/
instance Contracted.decide : ∀ (cs : List Call) (mm : MemoryManager),
    Decidable (Contracted mm cs)
  | [], _ => isTrue trivial
  | c :: cs, mm =>
    have := Contracted.decide cs (c.exec mm).2
    inferInstanceAs (Decidable (MmapContract mm c.mmapRet ∧ Contracted (c.exec mm).2 cs))

/-- The number of distinct pages in the tracked list. -/
def distinctPageCount (mm : MemoryManager) : Nat := mm.physicalPages.dedup.length

/-! ## Basic facts about the containers -/

theorem getD_set_self (l : List Nat) (v p d : Nat) (h : v < l.length) :
    (l.set v p).getD v d = p := by
  simp [List.getD_eq_getElem?_getD, List.getElem?_set, h]

theorem getD_set_ne (l : List Nat) (v w p d : Nat) (h : v ≠ w) :
    (l.set v p).getD w d = l.getD w d := by
  simp [List.getD_eq_getElem?_getD, List.getElem?_set, h]

theorem index_fst_occupied (m : MetaMap) (a : Nat) :
    (MetaMap.index m a).1.occupiedFlg = MetaMap.occupied m a := by
  unfold MetaMap.index MetaMap.occupied
  cases h : m a <;> simp [ArrMetadata.default]

theorem assign_index (m : MetaMap) (a : Nat) (r : ArrMetadata) :
    MetaMap.assign (MetaMap.index m a).2 a r = MetaMap.assign m a r := by
  funext k
  unfold MetaMap.index MetaMap.assign
  cases h : m a <;> by_cases hk : k = a <;> simp [hk]

theorem resolveConflict_failed (mm : MemoryManager) (v s : Nat)
    (hv : v < mm.virtualPages.length) :
    mm.resolveConflict v s MAP_FAILED = mm := by
  unfold MemoryManager.resolveConflict MemoryManager.allocatePhysicalPage
  simp [Nat.not_le.mpr hv]

theorem resolveConflict_acquired (mm : MemoryManager) (v s m : Nat)
    (hv : v < mm.virtualPages.length) (hm : m ≠ MAP_FAILED) (h0 : m ≠ nullptr) :
    mm.resolveConflict v s m =
      { virtualPages := mm.virtualPages.set v m
        physicalPages := mm.physicalPages ++ [m]
        arrMetadata := MetaMap.assign mm.arrMetadata (ptrAdd m (slotOffset s)) ⟨0, false⟩ } := by
  unfold MemoryManager.resolveConflict MemoryManager.allocatePhysicalPage
    MemoryManager.mapVirtualPageToPhysicalPage
  simp only [ge_iff_le, Nat.not_le.mpr hv, if_false, hm, h0]
  simp only [getD_set_self _ _ _ _ hv]
  congr 1
  funext k
  unfold MetaMap.index MetaMap.assign
  cases h : mm.arrMetadata (ptrAdd m (slotOffset s)) <;>
    by_cases hk : k = ptrAdd m (slotOffset s) <;> simp [hk, h]


theorem assign_assign (m : MetaMap) (a : Nat) (r r2 : ArrMetadata) :
    MetaMap.assign (MetaMap.assign m a r) a r2 = MetaMap.assign m a r2 := by
  funext k
  unfold MetaMap.assign
  by_cases hk : k = a <;> simp [hk]

theorem index_snd_of_occupied (m : MetaMap) (a : Nat) (h : MetaMap.occupied m a = true) :
    (MetaMap.index m a).2 = m := by
  unfold MetaMap.occupied at h
  unfold MetaMap.index
  cases hm : m a with
  | none => simp [hm] at h
  | some r => rfl

theorem allocateSlot_invalid (mm : MemoryManager) (v s m : Nat)
    (hv : mm.virtualPages.length ≤ v) : mm.allocateSlot v s m = (nullptr, mm) := by
  unfold MemoryManager.allocateSlot
  simp [hv]

theorem allocateSlot_unbound (mm : MemoryManager) (v s m : Nat)
    (hb : mm.virtualPages.getD v nullptr = nullptr) : mm.allocateSlot v s m = (nullptr, mm) := by
  unfold MemoryManager.allocateSlot
  split
  · rfl
  · simp only [hb, ↓reduceIte]

theorem allocateSlot_free (mm : MemoryManager) (v s m : Nat)
    (hv : v < mm.virtualPages.length)
    (hb : mm.virtualPages.getD v nullptr ≠ nullptr)
    (hfree : MetaMap.occupied mm.arrMetadata
      (ptrAdd (mm.virtualPages.getD v nullptr) (slotOffset s)) = false) :
    mm.allocateSlot v s m =
      (ptrAdd (mm.virtualPages.getD v nullptr) (slotOffset s),
        { virtualPages := mm.virtualPages
          physicalPages := mm.physicalPages
          arrMetadata := MetaMap.assign mm.arrMetadata
            (ptrAdd (mm.virtualPages.getD v nullptr) (slotOffset s))
            ⟨toOwnerField v, true⟩ }) := by
  unfold MemoryManager.allocateSlot
  simp only [ge_iff_le, Nat.not_le.mpr hv, if_false, hb, index_fst_occupied, hfree,
    assign_index]
  simp

theorem allocateSlot_conflict_acquired (mm : MemoryManager) (v s m : Nat)
    (hv : v < mm.virtualPages.length)
    (hb : mm.virtualPages.getD v nullptr ≠ nullptr)
    (hocc : MetaMap.occupied mm.arrMetadata
      (ptrAdd (mm.virtualPages.getD v nullptr) (slotOffset s)) = true)
    (hm : m ≠ MAP_FAILED) (h0 : m ≠ nullptr) :
    mm.allocateSlot v s m =
      (ptrAdd m (slotOffset s),
        { virtualPages := mm.virtualPages.set v m
          physicalPages := mm.physicalPages ++ [m]
          arrMetadata := MetaMap.assign mm.arrMetadata (ptrAdd m (slotOffset s))
            ⟨toOwnerField v, true⟩ }) := by
  unfold MemoryManager.allocateSlot
  simp only [ge_iff_le, Nat.not_le.mpr hv, if_false, hb, index_fst_occupied, hocc,
    index_snd_of_occupied _ _ hocc, if_true]
  rw [resolveConflict_acquired mm v s m hv hm h0]
  simp only [getD_set_self _ _ _ _ hv, assign_assign]

theorem allocateSlot_conflict_failed (mm : MemoryManager) (v s : Nat)
    (hv : v < mm.virtualPages.length)
    (hb : mm.virtualPages.getD v nullptr ≠ nullptr)
    (hocc : MetaMap.occupied mm.arrMetadata
      (ptrAdd (mm.virtualPages.getD v nullptr) (slotOffset s)) = true) :
    mm.allocateSlot v s MAP_FAILED =
      (ptrAdd (mm.virtualPages.getD v nullptr) (slotOffset s),
        { virtualPages := mm.virtualPages
          physicalPages := mm.physicalPages
          arrMetadata := MetaMap.assign mm.arrMetadata
            (ptrAdd (mm.virtualPages.getD v nullptr) (slotOffset s))
            ⟨toOwnerField v, true⟩ }) := by
  unfold MemoryManager.allocateSlot
  simp only [ge_iff_le, Nat.not_le.mpr hv, if_false, hb, index_fst_occupied, hocc,
    index_snd_of_occupied _ _ hocc, if_true]
  rw [resolveConflict_failed mm v s hv]

theorem getSlot_invalid (mm : MemoryManager) (v s m : Nat)
    (hv : mm.virtualPages.length ≤ v) : mm.getSlot v s m = (nullptr, mm) := by
  unfold MemoryManager.getSlot
  simp [hv]

theorem getSlot_unbound (mm : MemoryManager) (v s m : Nat)
    (hb : mm.virtualPages.getD v nullptr = nullptr) : mm.getSlot v s m = (nullptr, mm) := by
  unfold MemoryManager.getSlot
  split
  · rfl
  · simp only [hb, ↓reduceIte]

theorem getSlot_absent (mm : MemoryManager) (v s m : Nat)
    (hnone : mm.arrMetadata (ptrAdd (mm.virtualPages.getD v nullptr) (slotOffset s)) = none) :
    mm.getSlot v s m = (nullptr, mm) := by
  unfold MemoryManager.getSlot
  split
  · rfl
  · simp only [MetaMap.find, hnone]
    split <;> rfl

theorem getSlot_noconflict (mm : MemoryManager) (v s m : Nat) (r : ArrMetadata)
    (hv : v < mm.virtualPages.length)
    (hb : mm.virtualPages.getD v nullptr ≠ nullptr)
    (hrec : mm.arrMetadata (ptrAdd (mm.virtualPages.getD v nullptr) (slotOffset s)) = some r)
    (hown : r.occupiedFlg = false ∨ r.virtualPageId = v) :
    mm.getSlot v s m =
      (if r.occupiedFlg then ptrAdd (mm.virtualPages.getD v nullptr) (slotOffset s)
        else nullptr, mm) := by
  unfold MemoryManager.getSlot
  simp only [ge_iff_le, Nat.not_le.mpr hv, if_false, hb, MetaMap.find, hrec]
  rcases hown with h | h
  · simp [h]
  · cases ho : r.occupiedFlg <;> simp [h]

theorem getSlot_conflict_acquired (mm : MemoryManager) (v s m : Nat) (r : ArrMetadata)
    (hv : v < mm.virtualPages.length)
    (hb : mm.virtualPages.getD v nullptr ≠ nullptr)
    (hrec : mm.arrMetadata (ptrAdd (mm.virtualPages.getD v nullptr) (slotOffset s)) = some r)
    (hocc : r.occupiedFlg = true) (hown : r.virtualPageId ≠ v)
    (hm : m ≠ MAP_FAILED) (h0 : m ≠ nullptr) :
    mm.getSlot v s m =
      (nullptr,
        { virtualPages := mm.virtualPages.set v m
          physicalPages := mm.physicalPages ++ [m]
          arrMetadata := MetaMap.assign mm.arrMetadata (ptrAdd m (slotOffset s)) ⟨0, false⟩ }) := by
  unfold MemoryManager.getSlot
  simp only [ge_iff_le, Nat.not_le.mpr hv, if_false, hb, MetaMap.find, hrec]
  rw [resolveConflict_acquired mm v s m hv hm h0]
  simp [-List.getD_eq_getElem?_getD, hocc, hown, getD_set_self _ _ _ _ hv, MetaMap.assign]

theorem getSlot_conflict_failed (mm : MemoryManager) (v s : Nat) (r : ArrMetadata)
    (hv : v < mm.virtualPages.length)
    (hb : mm.virtualPages.getD v nullptr ≠ nullptr)
    (hrec : mm.arrMetadata (ptrAdd (mm.virtualPages.getD v nullptr) (slotOffset s)) = some r)
    (hocc : r.occupiedFlg = true) (hown : r.virtualPageId ≠ v) :
    mm.getSlot v s MAP_FAILED =
      (ptrAdd (mm.virtualPages.getD v nullptr) (slotOffset s), mm) := by
  unfold MemoryManager.getSlot
  simp only [ge_iff_le, Nat.not_le.mpr hv, if_false, hb, MetaMap.find, hrec]
  rw [resolveConflict_failed mm v s hv]
  simp [-List.getD_eq_getElem?_getD, hocc, hown, hrec]

theorem FreshPage.ne_failed {mm : MemoryManager} {p : Nat} (h : FreshPage mm p) :
    p ≠ MAP_FAILED := by
  rcases h with ⟨_, h2, _, _⟩
  intro he
  rw [he] at h2
  revert h2
  decide

theorem init_loop (p : Nat) (pp : List Nat) (md : MetaMap) (n : Nat) :
    (List.range n).foldl (fun mm i => MemoryManager.mapVirtualPageToPhysicalPage mm i p)
      { virtualPages := [], physicalPages := pp, arrMetadata := md }
    = { virtualPages := List.replicate n p, physicalPages := pp, arrMetadata := md } := by
  induction n with
  | zero => rfl
  | succ n ih =>
    rw [List.range_succ, List.foldl_append, ih]
    simp only [List.foldl_cons, List.foldl_nil, MemoryManager.mapVirtualPageToPhysicalPage,
      List.length_replicate, ge_iff_le, le_refl, if_true, resizeNull]
    congr 1
    simp [List.replicate_succ']

theorem init_acquired (m : Nat) (hm : m ≠ MAP_FAILED) :
    MemoryManager.init m =
      { virtualPages := List.replicate INITIAL_VIRTUAL_PAGES m
        physicalPages := [m]
        arrMetadata := fun _ => none } := by
  unfold MemoryManager.init MemoryManager.allocatePhysicalPage MemoryManager.empty
  simp only [hm, if_false, List.nil_append]
  exact init_loop m [m] _ _

theorem init_failed :
    MemoryManager.init MAP_FAILED =
      { virtualPages := List.replicate INITIAL_VIRTUAL_PAGES nullptr
        physicalPages := []
        arrMetadata := fun _ => none } := by
  unfold MemoryManager.init MemoryManager.allocatePhysicalPage MemoryManager.empty
  simp only [if_true]
  exact init_loop nullptr [] _ _

/-! ## The shape of a step and the invariant -/

theorem FreshPage.ne_null {mm : MemoryManager} {p : Nat} (h : FreshPage mm p) :
    p ≠ nullptr := h.1

theorem occupied_eq_true_iff (md : MetaMap) (a : Nat) :
    MetaMap.occupied md a = true ↔ ∃ r, md a = some r ∧ r.occupiedFlg = true := by
  unfold MetaMap.occupied
  cases h : md a <;> simp

theorem allocateSlot_shape (mm : MemoryManager) (v s m : Nat) (hc : MmapContract mm m) :
    StepShape mm (mm.allocateSlot v s m).2 v m := by
  by_cases hv : mm.virtualPages.length ≤ v
  · rw [allocateSlot_invalid mm v s m hv]; exact Or.inl ⟨rfl, rfl⟩
  have hv2 : v < mm.virtualPages.length := Nat.lt_of_not_le hv
  by_cases hb : mm.virtualPages.getD v nullptr = nullptr
  · rw [allocateSlot_unbound mm v s m hb]; exact Or.inl ⟨rfl, rfl⟩
  cases hocc : MetaMap.occupied mm.arrMetadata
      (ptrAdd (mm.virtualPages.getD v nullptr) (slotOffset s))
  · rw [allocateSlot_free mm v s m hv2 hb hocc]; exact Or.inl ⟨rfl, rfl⟩
  · rcases hc with hf | hf
    · subst hf
      rw [allocateSlot_conflict_failed mm v s hv2 hb hocc]; exact Or.inl ⟨rfl, rfl⟩
    · rw [allocateSlot_conflict_acquired mm v s m hv2 hb hocc hf.ne_failed hf.ne_null]
      exact Or.inr ⟨hf, hv2, rfl, rfl⟩

theorem getSlot_shape (mm : MemoryManager) (v s m : Nat) (hc : MmapContract mm m) :
    StepShape mm (mm.getSlot v s m).2 v m := by
  by_cases hv : mm.virtualPages.length ≤ v
  · rw [getSlot_invalid mm v s m hv]; exact Or.inl ⟨rfl, rfl⟩
  have hv2 : v < mm.virtualPages.length := Nat.lt_of_not_le hv
  by_cases hb : mm.virtualPages.getD v nullptr = nullptr
  · rw [getSlot_unbound mm v s m hb]; exact Or.inl ⟨rfl, rfl⟩
  cases hrec : mm.arrMetadata (ptrAdd (mm.virtualPages.getD v nullptr) (slotOffset s)) with
  | none => rw [getSlot_absent mm v s m hrec]; exact Or.inl ⟨rfl, rfl⟩
  | some r =>
    by_cases hown : r.occupiedFlg = false ∨ r.virtualPageId = v
    · rw [getSlot_noconflict mm v s m r hv2 hb hrec hown]; exact Or.inl ⟨rfl, rfl⟩
    · have ho : r.occupiedFlg = true := by
        cases h : r.occupiedFlg
        · exact absurd (Or.inl h) hown
        · rfl
      have hn : r.virtualPageId ≠ v := fun h => hown (Or.inr h)
      rcases hc with hf | hf
      · subst hf
        rw [getSlot_conflict_failed mm v s r hv2 hb hrec ho hn]; exact Or.inl ⟨rfl, rfl⟩
      · rw [getSlot_conflict_acquired mm v s m r hv2 hb hrec ho hn hf.ne_failed hf.ne_null]
        exact Or.inr ⟨hf, hv2, rfl, rfl⟩

theorem WellFormed.of_shape {mm mm2 : MemoryManager} {v m : Nat} (h : WellFormed mm)
    (hs : StepShape mm mm2 v m) : WellFormed mm2 := by
  rcases hs with ⟨hvp, hpp⟩ | ⟨hf, hv, hvp, hpp⟩
  · exact ⟨by rw [hvp]; exact h.length_eq, by rw [hvp, hpp]; exact h.bound_tracked,
      by rw [hpp]; exact h.pages_valid, by rw [hpp]; exact h.pages_nodup⟩
  · refine ⟨by rw [hvp, List.length_set]; exact h.length_eq, ?_, ?_, ?_⟩
    · intro i hi
      rw [hvp, hpp] at *
      by_cases hiv : v = i
      · subst hiv
        rw [getD_set_self _ _ _ _ hv]
        exact List.mem_append_right _ (List.mem_singleton_self _)
      · rw [getD_set_ne _ _ _ _ _ hiv] at hi ⊢
        exact List.mem_append_left _ (h.bound_tracked i hi)
    · intro p hp
      rw [hpp, List.mem_append, List.mem_singleton] at hp
      rcases hp with hp | hp
      · exact h.pages_valid p hp
      · subst hp; exact ⟨hf.1, hf.2.1, hf.2.2.1⟩
    · rw [hpp]
      refine List.Nodup.append h.pages_nodup (List.nodup_singleton _) ?_
      intro x hx hx2
      rw [List.mem_singleton] at hx2
      subst hx2
      exact hf.2.2.2 hx

theorem wellFormed_init (m : Nat) (hc : MmapContract MemoryManager.empty m) :
    WellFormed (MemoryManager.init m) := by
  rcases hc with hf | hf
  · subst hf
    rw [init_failed]
    refine ⟨List.length_replicate _ _, ?_, ?_, List.nodup_nil⟩
    · intro i hi
      exfalso; apply hi
      simp only [List.getD_eq_getElem?_getD, List.getElem?_replicate]
      split <;> rfl
    · intro p hp; cases hp
  · rw [init_acquired m hf.ne_failed]
    refine ⟨List.length_replicate _ _, ?_, ?_, List.nodup_singleton _⟩
    · intro i hi
      simp only [List.getD_eq_getElem?_getD, List.getElem?_replicate] at hi ⊢
      split at hi
      · rename_i hlt
        simp [hlt]
      · exact absurd rfl hi
    · intro p hp
      rw [List.mem_singleton] at hp
      subst hp; exact ⟨hf.1, hf.2.1, hf.2.2.1⟩

theorem Reachable.wellFormed {mm : MemoryManager} (h : Reachable mm) : WellFormed mm := by
  induction h with
  | init m hc => exact wellFormed_init m hc
  | allocateSlot mm v s m _ hc ih => exact ih.of_shape (allocateSlot_shape mm v s m hc)
  | getSlot mm v s m _ hc ih => exact ih.of_shape (getSlot_shape mm v s m hc)


/-! ## What `allocateSlot` leaves behind -/

theorem resolveConflict_null (mm : MemoryManager) (v s : Nat)
    (hv : v < mm.virtualPages.length) :
    mm.resolveConflict v s nullptr =
      { mm with physicalPages := mm.physicalPages ++ [nullptr] } := by
  unfold MemoryManager.resolveConflict MemoryManager.allocatePhysicalPage
  have h : nullptr ≠ MAP_FAILED := by decide
  simp only [ge_iff_le, Nat.not_le.mpr hv, if_false, h, if_true]

theorem toOwnerField_of_lt (v : Nat) (hv : v < INITIAL_VIRTUAL_PAGES) : toOwnerField v = v := by
  unfold toOwnerField
  unfold INITIAL_VIRTUAL_PAGES at hv
  omega

theorem assign_self (md : MetaMap) (a : Nat) (r : ArrMetadata) :
    MetaMap.assign md a r a = some r := by
  simp [MetaMap.assign]

theorem assign_other (md : MetaMap) (a k : Nat) (r : ArrMetadata) (h : k ≠ a) :
    MetaMap.assign md a r k = md k := by
  simp [MetaMap.assign, h]

theorem allocateSlot_conflict_null (mm : MemoryManager) (v s : Nat)
    (hv : v < mm.virtualPages.length)
    (hb : mm.virtualPages.getD v nullptr ≠ nullptr)
    (hocc : MetaMap.occupied mm.arrMetadata
      (ptrAdd (mm.virtualPages.getD v nullptr) (slotOffset s)) = true) :
    mm.allocateSlot v s nullptr =
      (ptrAdd (mm.virtualPages.getD v nullptr) (slotOffset s),
        { virtualPages := mm.virtualPages
          physicalPages := mm.physicalPages ++ [nullptr]
          arrMetadata := MetaMap.assign mm.arrMetadata
            (ptrAdd (mm.virtualPages.getD v nullptr) (slotOffset s))
            ⟨toOwnerField v, true⟩ }) := by
  unfold MemoryManager.allocateSlot
  simp only [ge_iff_le, Nat.not_le.mpr hv, if_false, hb, index_fst_occupied, hocc,
    index_snd_of_occupied _ _ hocc, if_true]
  rw [resolveConflict_null mm v s hv]

/-- After a call of `allocateSlot` on a bound page, whatever `mmap` returned:
the table has kept its size, `v` is bound, the pointer returned is the address
of slot `s` on the page `v` is now bound to, and the record at that address is
occupied and carries the owner field of `v`. -/
theorem allocateSlot_post (mm : MemoryManager) (v s m : Nat)
    (hv : v < mm.virtualPages.length)
    (hb : mm.virtualPages.getD v nullptr ≠ nullptr) :
    (mm.allocateSlot v s m).2.virtualPages.length = mm.virtualPages.length ∧
    (mm.allocateSlot v s m).2.virtualPages.getD v nullptr ≠ nullptr ∧
    (mm.allocateSlot v s m).1 =
      ptrAdd ((mm.allocateSlot v s m).2.virtualPages.getD v nullptr) (slotOffset s) ∧
    (mm.allocateSlot v s m).2.arrMetadata (mm.allocateSlot v s m).1 =
      some ⟨toOwnerField v, true⟩ := by
  cases hocc : MetaMap.occupied mm.arrMetadata
      (ptrAdd (mm.virtualPages.getD v nullptr) (slotOffset s))
  · rw [allocateSlot_free mm v s m hv hb hocc]
    exact ⟨rfl, hb, rfl, assign_self _ _ _⟩
  · by_cases hf : m = MAP_FAILED
    · subst hf
      rw [allocateSlot_conflict_failed mm v s hv hb hocc]
      exact ⟨rfl, hb, rfl, assign_self _ _ _⟩
    · by_cases h0 : m = nullptr
      · subst h0
        rw [allocateSlot_conflict_null mm v s hv hb hocc]
        exact ⟨rfl, hb, rfl, assign_self _ _ _⟩
      · rw [allocateSlot_conflict_acquired mm v s m hv hb hocc hf h0]
        refine ⟨List.length_set _ _ _, ?_, ?_, assign_self _ _ _⟩
        · simp only [getD_set_self _ _ _ _ hv]; exact h0
        · simp only [getD_set_self _ _ _ _ hv]

theorem allocateSlot_ne_null_bound (mm : MemoryManager) (v s m : Nat)
    (hA : (mm.allocateSlot v s m).1 ≠ nullptr) :
    v < mm.virtualPages.length ∧ mm.virtualPages.getD v nullptr ≠ nullptr := by
  constructor
  · by_contra hv
    exact hA (by rw [allocateSlot_invalid mm v s m (Nat.le_of_not_lt hv)])
  · intro hb
    exact hA (by rw [allocateSlot_unbound mm v s m hb])

/-! ## C1, C4, C7 -/

/-- On a well-formed state, a `getSlot` that follows an `allocateSlot` of the
same slot returns the pointer the allocation returned. -/
theorem getSlot_after_allocateSlot (mm : MemoryManager) (hwf : WellFormed mm)
    (v s m1 m2 : Nat) (hA : (mm.allocateSlot v s m1).1 ≠ nullptr) :
    ((mm.allocateSlot v s m1).2.getSlot v s m2).1 = (mm.allocateSlot v s m1).1 := by
  obtain ⟨hv, hb⟩ := allocateSlot_ne_null_bound mm v s m1 hA
  obtain ⟨hlen, hb2, haddr, hrec⟩ := allocateSlot_post mm v s m1 hv hb
  have hv1 : v < INITIAL_VIRTUAL_PAGES := by rw [← hwf.length_eq]; exact hv
  rw [haddr] at hrec
  rw [getSlot_noconflict _ v s m2 ⟨toOwnerField v, true⟩ (by rw [hlen]; exact hv) hb2 hrec
    (Or.inr (toOwnerField_of_lt v hv1))]
  simp only [if_true]
  exact haddr.symm

/-- C1 (allocate-then-get round trip): in every reachable state of the manager,
for every virtual page id `v` and slot id `s`, if `allocateSlot(v, s)` returns a
non-null address, then `getSlot(v, s)` called on the state it leaves returns
exactly that address, whatever `mmap` returned during the first call and would
return during the second. -/
theorem allocateSlot_then_getSlot (mm : MemoryManager) (hR : Reachable mm)
    (v s m1 m2 : Nat) (hA : (mm.allocateSlot v s m1).1 ≠ nullptr) :
    ((mm.allocateSlot v s m1).2.getSlot v s m2).1 = (mm.allocateSlot v s m1).1 :=
  getSlot_after_allocateSlot mm hR.wellFormed v s m1 m2 hA

set_option maxRecDepth 20000 in
/-- C1 at a concrete input: Test 3 of `main.cpp`, slot (0, 0) of a fresh manager
on page 4096. -/
theorem allocateSlot_then_getSlot_witness :
    ((MemoryManager.init 4096).allocateSlot 0 0 8192).1 ≠ nullptr ∧
    (((MemoryManager.init 4096).allocateSlot 0 0 8192).2.getSlot 0 0 8192).1
      = ((MemoryManager.init 4096).allocateSlot 0 0 8192).1 :=
  ⟨by rw [init_acquired 4096 (by decide)]; decide,
   allocateSlot_then_getSlot _ (Reachable.init 4096 (by decide)) 0 0 8192 8192
     (by rw [init_acquired 4096 (by decide)]; decide)⟩

/-- C4 (bootstrap sharing): when the `mmap` call of the constructor succeeds
with page `m`, the tracked list is exactly `[m]`, the virtual page table has
exactly 1024 entries, and every one of them is bound to `m`. -/
theorem init_bootstrap (m : Nat) (hm : m ≠ MAP_FAILED) :
    (MemoryManager.init m).getPhysicalPages = [m] ∧
    (MemoryManager.init m).virtualPages.length = 1024 ∧
    ∀ i, i < 1024 → (MemoryManager.init m).virtualPages.getD i nullptr = m := by
  rw [init_acquired m hm]
  refine ⟨rfl, List.length_replicate _ _, ?_⟩
  intro i hi
  have hi2 : i < INITIAL_VIRTUAL_PAGES := hi
  simp [List.getD_eq_getElem?_getD, List.getElem?_replicate, hi2]

/-- C4 at a concrete input: the constructor receiving page 4096. -/
theorem init_bootstrap_witness :
    (MemoryManager.init 4096).getPhysicalPages = [4096] ∧
    (MemoryManager.init 4096).virtualPages.length = 1024 ∧
    ∀ i, i < 1024 → (MemoryManager.init 4096).virtualPages.getD i nullptr = 4096 :=
  init_bootstrap 4096 (by decide)

/-- C7 (invalid virtual page): in every reachable state, for every virtual
page id `v ≥ 1024` and every slot id, `allocateSlot` and `getSlot` both return
`nullptr` and leave the whole state (tracked list, table, metadata) as it
was. -/
theorem invalid_virtual_page_rejected (mm : MemoryManager) (hR : Reachable mm)
    (v s m : Nat) (hv : 1024 ≤ v) :
    mm.allocateSlot v s m = (nullptr, mm) ∧ mm.getSlot v s m = (nullptr, mm) := by
  have hlen : mm.virtualPages.length ≤ v := by
    rw [hR.wellFormed.length_eq]; exact hv
  exact ⟨allocateSlot_invalid mm v s m hlen, getSlot_invalid mm v s m hlen⟩


/-- C7 at a concrete input: virtual page id 1024 on a fresh manager. -/
theorem invalid_virtual_page_rejected_witness :
    (MemoryManager.init 4096).allocateSlot 1024 0 8192 = (nullptr, MemoryManager.init 4096) ∧
    (MemoryManager.init 4096).getSlot 1024 0 8192 = (nullptr, MemoryManager.init 4096) :=
  invalid_virtual_page_rejected (MemoryManager.init 4096) (Reachable.init 4096 (by decide))
    1024 0 8192 (by decide)

/-! ## Address arithmetic inside a page -/

theorem ptrAdd_slot (p s : Nat) (hp : p + PAGE_SIZE ≤ WORD) (hs : s < SLOTS_PER_PAGE) :
    ptrAdd p (slotOffset s) = p + s * SLOT_SIZE := by
  unfold ptrAdd slotOffset
  unfold PAGE_SIZE WORD at hp
  unfold SLOTS_PER_PAGE PAGE_SIZE SLOT_SIZE at hs
  unfold WORD SLOT_SIZE
  omega

theorem getD_ne_null_lt (l : List Nat) (v : Nat) (h : l.getD v nullptr ≠ nullptr) :
    v < l.length := by
  by_contra hv
  apply h
  simp [List.getD_eq_getElem?_getD, List.getElem?_eq_none (Nat.le_of_not_lt hv)]

/-! ## C2 -/

/-- C2 (a conflict allocates exactly one page): in a reachable state in which
two virtual pages `v1` and `v2` (distinct or not) are bound to the same physical
page and slot `s` of that page is not occupied, `allocateSlot(v1, s)` followed by
`allocateSlot(v2, s)`, whose `mmap` call succeeds with the fresh page `m2`,
makes the tracked list exactly one page longer; `getSlot(v2, s)` then leaves
the state alone and returns a non-null address different from the one returned
to `v1`. -/
theorem conflict_allocates_one_page (mm : MemoryManager) (hR : Reachable mm)
    (v1 v2 s m1 m2 m3 : Nat)
    (hb : mm.virtualPages.getD v1 nullptr ≠ nullptr)
    (hshare : mm.virtualPages.getD v2 nullptr = mm.virtualPages.getD v1 nullptr)
    (hfree : MetaMap.occupied mm.arrMetadata
      (ptrAdd (mm.virtualPages.getD v1 nullptr) (slotOffset s)) = false)
    (hs : s < SLOTS_PER_PAGE)
    (hm2 : FreshPage (mm.allocateSlot v1 s m1).2 m2) :
    ((mm.allocateSlot v1 s m1).2.allocateSlot v2 s m2).2.getPhysicalPages.length
      = mm.getPhysicalPages.length + 1 ∧
    (((mm.allocateSlot v1 s m1).2.allocateSlot v2 s m2).2.getSlot v2 s m3).2
      = ((mm.allocateSlot v1 s m1).2.allocateSlot v2 s m2).2 ∧
    (((mm.allocateSlot v1 s m1).2.allocateSlot v2 s m2).2.getSlot v2 s m3).1 ≠ nullptr ∧
    (((mm.allocateSlot v1 s m1).2.allocateSlot v2 s m2).2.getSlot v2 s m3).1
      ≠ (mm.allocateSlot v1 s m1).1 := by
  have hwf := hR.wellFormed
  have hv1 : v1 < mm.virtualPages.length := getD_ne_null_lt _ _ hb
  have hv2 : v2 < mm.virtualPages.length := getD_ne_null_lt _ _ (by rw [hshare]; exact hb)
  have hv2' : v2 < INITIAL_VIRTUAL_PAGES := by rw [← hwf.length_eq]; exact hv2
  have hP := hwf.pages_valid _ (hwf.bound_tracked v1 hb)
  have e1 := allocateSlot_free mm v1 s m1 hv1 hb hfree
  rw [e1] at hm2 ⊢
  dsimp only at hm2 ⊢
  have hfr : FreshPage mm m2 := hm2
  have e2 := allocateSlot_conflict_acquired
    { virtualPages := mm.virtualPages
      physicalPages := mm.physicalPages
      arrMetadata := MetaMap.assign mm.arrMetadata
        (ptrAdd (mm.virtualPages.getD v1 nullptr) (slotOffset s)) ⟨toOwnerField v1, true⟩ }
    v2 s m2 hv2 (by rw [hshare]; exact hb)
    (by dsimp only; rw [hshare]; simp [MetaMap.occupied, MetaMap.assign])
    hfr.ne_failed hfr.ne_null
  rw [e2]
  dsimp only
  have e3 := getSlot_noconflict
    { virtualPages := mm.virtualPages.set v2 m2
      physicalPages := mm.physicalPages ++ [m2]
      arrMetadata := MetaMap.assign (MetaMap.assign mm.arrMetadata
        (ptrAdd (mm.virtualPages.getD v1 nullptr) (slotOffset s)) ⟨toOwnerField v1, true⟩)
        (ptrAdd m2 (slotOffset s)) ⟨toOwnerField v2, true⟩ }
    v2 s m3 ⟨toOwnerField v2, true⟩
    (by simp only [List.length_set]; exact hv2)
    (by simp only [getD_set_self _ _ _ _ hv2]; exact hfr.ne_null)
    (by simp only [getD_set_self _ _ _ _ hv2]; exact assign_self _ _ _)
    (Or.inr (toOwnerField_of_lt v2 hv2'))
  rw [e3]
  simp only [if_true, getD_set_self _ _ _ _ hv2, MemoryManager.getPhysicalPages]
  rw [ptrAdd_slot m2 s hfr.2.2.1 hs, ptrAdd_slot _ s hP.2.2 hs]
  have hmP : m2 ≠ mm.virtualPages.getD v1 nullptr := by
    intro h
    exact hfr.2.2.2 (h ▸ hwf.bound_tracked v1 hb)
  have hm0 : m2 ≠ 0 := hfr.1
  refine ⟨by simp, trivial, ?_, ?_⟩
  · unfold nullptr; omega
  · omega

set_option maxRecDepth 20000 in
/-- C2 at a concrete input: a fresh manager on page 4096, virtual pages 0 and 5,
slot 0, the second allocation acquiring page 8192. -/
theorem conflict_allocates_one_page_witness :
    (((MemoryManager.init 4096).allocateSlot 0 0 8192).2.allocateSlot 5 0 8192).2.getPhysicalPages.length
      = (MemoryManager.init 4096).getPhysicalPages.length + 1 ∧
    ((((MemoryManager.init 4096).allocateSlot 0 0 8192).2.allocateSlot 5 0 8192).2.getSlot 5 0 0).2
      = (((MemoryManager.init 4096).allocateSlot 0 0 8192).2.allocateSlot 5 0 8192).2 ∧
    ((((MemoryManager.init 4096).allocateSlot 0 0 8192).2.allocateSlot 5 0 8192).2.getSlot 5 0 0).1
      ≠ nullptr ∧
    ((((MemoryManager.init 4096).allocateSlot 0 0 8192).2.allocateSlot 5 0 8192).2.getSlot 5 0 0).1
      ≠ ((MemoryManager.init 4096).allocateSlot 0 0 8192).1 :=
  conflict_allocates_one_page (MemoryManager.init 4096) (Reachable.init 4096 (by decide))
    0 5 0 8192 8192 0
    (by rw [init_acquired 4096 (by decide)]; decide)
    (by rw [init_acquired 4096 (by decide)]; decide)
    (by rw [init_acquired 4096 (by decide)]; decide)
    (by decide)
    (by rw [init_acquired 4096 (by decide)]; decide)


/-! ## Normal forms of a call on a well-formed state -/

/-- The call `allocateSlot` on a slot whose address is occupied, `mmap` succeeding with
the fresh page `m`: `v` is rebound to `m`, `m` is tracked, and the slot of `m`
is recorded as owned by `v`. -/
theorem allocateSlot_occupied_fresh (st : MemoryManager) (hwf : WellFormed st) (v s m : Nat)
    (hb : st.virtualPages.getD v nullptr ≠ nullptr)
    (hocc : MetaMap.occupied st.arrMetadata
      (ptrAdd (st.virtualPages.getD v nullptr) (slotOffset s)) = true)
    (hs : s < SLOTS_PER_PAGE) (hm : FreshPage st m) :
    st.allocateSlot v s m =
      (m + s * SLOT_SIZE,
        { virtualPages := st.virtualPages.set v m
          physicalPages := st.physicalPages ++ [m]
          arrMetadata := MetaMap.assign st.arrMetadata (m + s * SLOT_SIZE) ⟨v, true⟩ }) := by
  have hv : v < st.virtualPages.length := getD_ne_null_lt _ _ hb
  rw [allocateSlot_conflict_acquired st v s m hv hb hocc hm.ne_failed hm.ne_null,
    ptrAdd_slot m s hm.2.2.1 hs,
    toOwnerField_of_lt v (by rw [← hwf.length_eq]; exact hv)]

/-- The call `getSlot` on a slot whose record is occupied and owned by the caller. -/
theorem getSlot_owned (st : MemoryManager) (v s m a : Nat)
    (hb : st.virtualPages.getD v nullptr ≠ nullptr)
    (ha : ptrAdd (st.virtualPages.getD v nullptr) (slotOffset s) = a)
    (hrec : st.arrMetadata a = some ⟨v, true⟩) :
    st.getSlot v s m = (a, st) := by
  have hv : v < st.virtualPages.length := getD_ne_null_lt _ _ hb
  subst ha
  rw [getSlot_noconflict st v s m ⟨v, true⟩ hv hb hrec (Or.inr rfl)]
  simp only [if_true]

/-- Slots of distinct aligned pages have distinct addresses. -/
theorem slot_addr_ne (p q s t : Nat) (hp : p % PAGE_SIZE = 0) (hq : q % PAGE_SIZE = 0)
    (hpq : p ≠ q) (hs : s < SLOTS_PER_PAGE) (ht : t < SLOTS_PER_PAGE) :
    p + s * SLOT_SIZE ≠ q + t * SLOT_SIZE := by
  unfold PAGE_SIZE at hp hq
  unfold SLOTS_PER_PAGE PAGE_SIZE SLOT_SIZE at hs ht
  unfold SLOT_SIZE
  omega

/-! ## C5, C6 -/

set_option maxRecDepth 20000 in
/-- C5 fails as stated: on a fresh manager (page 4096), `allocateSlot(0, 0)`
returns 4096 and leaves slot (0, 0) owned by virtual page 0; the same call
again, `mmap` succeeding with page 8192, returns 8192 and the tracked list
grows from one page to two. -/
theorem reclaim_not_idempotent :
    Reachable ((MemoryManager.init 4096).allocateSlot 0 0 8192).2 ∧
    FreshPage ((MemoryManager.init 4096).allocateSlot 0 0 8192).2 8192 ∧
    ((MemoryManager.init 4096).allocateSlot 0 0 8192).1 = 4096 ∧
    ((MemoryManager.init 4096).allocateSlot 0 0 8192).2.virtualPages.getD 0 nullptr = 4096 ∧
    ((MemoryManager.init 4096).allocateSlot 0 0 8192).2.arrMetadata 4096 = some ⟨0, true⟩ ∧
    (((MemoryManager.init 4096).allocateSlot 0 0 8192).2.allocateSlot 0 0 8192).1 = 8192 ∧
    (((MemoryManager.init 4096).allocateSlot 0 0 8192).2.allocateSlot 0 0 8192).1
      ≠ ((MemoryManager.init 4096).allocateSlot 0 0 8192).1 ∧
    ((MemoryManager.init 4096).allocateSlot 0 0 8192).2.getPhysicalPages = [4096] ∧
    (((MemoryManager.init 4096).allocateSlot 0 0 8192).2.allocateSlot 0 0 8192).2.getPhysicalPages
      = [4096, 8192] := by
  refine ⟨Reachable.allocateSlot _ 0 0 8192 (Reachable.init 4096 (by decide)) ?_, ?_⟩
  · rw [init_acquired 4096 (by decide)]; decide
  · rw [init_acquired 4096 (by decide)]; decide

/-- C5 as amended: in a reachable state where `v` is bound and the record of
slot `(v, s)` is occupied with owner `v`, calling `allocateSlot(v, s)` again,
`mmap` succeeding with the fresh page `m`, is not an error but relocates the
slot: it returns the address of slot `s` on `m`, binds `v` to `m`, records `v`
as the owner there, and the tracked list grows by exactly the page `m`. -/
theorem reclaim_relocates (mm : MemoryManager) (hR : Reachable mm) (v s m : Nat)
    (hb : mm.virtualPages.getD v nullptr ≠ nullptr)
    (hown : mm.arrMetadata (ptrAdd (mm.virtualPages.getD v nullptr) (slotOffset s))
      = some ⟨v, true⟩)
    (hs : s < SLOTS_PER_PAGE) (hm : FreshPage mm m) :
    (mm.allocateSlot v s m).1 = m + s * SLOT_SIZE ∧
    (mm.allocateSlot v s m).1 ≠ ptrAdd (mm.virtualPages.getD v nullptr) (slotOffset s) ∧
    (mm.allocateSlot v s m).2.virtualPages.getD v nullptr = m ∧
    (mm.allocateSlot v s m).2.arrMetadata (mm.allocateSlot v s m).1 = some ⟨v, true⟩ ∧
    (mm.allocateSlot v s m).2.getPhysicalPages = mm.getPhysicalPages ++ [m] := by
  have hwf := hR.wellFormed
  have hv : v < mm.virtualPages.length := getD_ne_null_lt _ _ hb
  have hP := hwf.pages_valid _ (hwf.bound_tracked v hb)
  rw [allocateSlot_occupied_fresh mm hwf v s m hb
    (by rw [occupied_eq_true_iff]; exact ⟨_, hown, rfl⟩) hs hm]
  refine ⟨rfl, ?_, getD_set_self _ _ _ _ hv, assign_self _ _ _, rfl⟩
  rw [ptrAdd_slot _ s hP.2.2 hs]
  exact slot_addr_ne _ _ s s hm.2.1 hP.2.1
    (fun h => hm.2.2.2 (h ▸ hwf.bound_tracked v hb)) hs hs

set_option maxRecDepth 20000 in
/-- The amended C5 at a concrete input: the second `allocateSlot(0, 0)` on a
fresh manager. -/
theorem reclaim_relocates_witness :
    (((MemoryManager.init 4096).allocateSlot 0 0 8192).2.allocateSlot 0 0 8192).1 = 8192 + 0 * SLOT_SIZE ∧
    (((MemoryManager.init 4096).allocateSlot 0 0 8192).2.allocateSlot 0 0 8192).2.getPhysicalPages
      = [4096, 8192] := by
  have h := reclaim_relocates ((MemoryManager.init 4096).allocateSlot 0 0 8192).2
    (Reachable.allocateSlot _ 0 0 8192 (Reachable.init 4096 (by decide))
      (by rw [init_acquired 4096 (by decide)]; decide))
    0 0 8192
    (by rw [init_acquired 4096 (by decide)]; decide)
    (by rw [init_acquired 4096 (by decide)]; decide)
    (by decide)
    (by rw [init_acquired 4096 (by decide)]; decide)
  refine ⟨h.1, ?_⟩
  rw [h.2.2.2.2]
  rw [init_acquired 4096 (by decide)]; decide

/-- C6 (re-allocation relocates): in a reachable state, if `allocateSlot(v, s)`
returned a non-null address `A`, then a second `allocateSlot(v, s)` whose `mmap`
call succeeds with the fresh page `m2` finds the slot occupied, acquires `m2`
(the tracked list grows by `m2`), and returns a non-null address different
from `A`. -/
theorem reallocation_relocates (mm : MemoryManager) (hR : Reachable mm) (v s m1 m2 : Nat)
    (hc1 : MmapContract mm m1)
    (hA : (mm.allocateSlot v s m1).1 ≠ nullptr)
    (hs : s < SLOTS_PER_PAGE)
    (hm2 : FreshPage (mm.allocateSlot v s m1).2 m2) :
    MetaMap.occupied (mm.allocateSlot v s m1).2.arrMetadata (mm.allocateSlot v s m1).1 = true ∧
    ((mm.allocateSlot v s m1).2.allocateSlot v s m2).2.getPhysicalPages
      = (mm.allocateSlot v s m1).2.getPhysicalPages ++ [m2] ∧
    ((mm.allocateSlot v s m1).2.allocateSlot v s m2).1 ≠ nullptr ∧
    ((mm.allocateSlot v s m1).2.allocateSlot v s m2).1 ≠ (mm.allocateSlot v s m1).1 := by
  obtain ⟨hv, hb⟩ := allocateSlot_ne_null_bound mm v s m1 hA
  obtain ⟨_, hb1, haddr, hrec⟩ := allocateSlot_post mm v s m1 hv hb
  have hwf1 : WellFormed (mm.allocateSlot v s m1).2 :=
    (Reachable.allocateSlot mm v s m1 hR hc1).wellFormed
  have hP := hwf1.pages_valid _ (hwf1.bound_tracked v hb1)
  have hocc : MetaMap.occupied (mm.allocateSlot v s m1).2.arrMetadata
      (mm.allocateSlot v s m1).1 = true := by
    rw [occupied_eq_true_iff]; exact ⟨_, hrec, rfl⟩
  refine ⟨hocc, ?_⟩
  rw [haddr] at hocc
  rw [allocateSlot_occupied_fresh _ hwf1 v s m2 hb1 hocc hs hm2]
  refine ⟨rfl, ?_, ?_⟩
  · have := hm2.1
    unfold nullptr at *
    dsimp only
    omega
  · rw [haddr, ptrAdd_slot _ s hP.2.2 hs]
    exact slot_addr_ne _ _ s s hm2.2.1 hP.2.1
      (fun h => hm2.2.2.2 (h ▸ hwf1.bound_tracked v hb1)) hs hs

set_option maxRecDepth 20000 in
/-- C6 at a concrete input: Test 4 of `main.cpp` on a fresh manager. -/
theorem reallocation_relocates_witness :
    (((MemoryManager.init 4096).allocateSlot 0 0 8192).2.allocateSlot 0 0 8192).1 ≠ nullptr ∧
    (((MemoryManager.init 4096).allocateSlot 0 0 8192).2.allocateSlot 0 0 8192).1
      ≠ ((MemoryManager.init 4096).allocateSlot 0 0 8192).1 :=
  (reallocation_relocates (MemoryManager.init 4096) (Reachable.init 4096 (by decide))
    0 0 8192 8192
    (by rw [init_acquired 4096 (by decide)]; decide)
    (by rw [init_acquired 4096 (by decide)]; decide)
    (by decide)
    (by rw [init_acquired 4096 (by decide)]; decide)).2.2


/-! ## C8, C9 -/

set_option maxRecDepth 20000 in
/-- C8 fails on the code: after `allocateSlot(0, 0)` on a fresh manager (page
4096), virtual page 5 still shares page 4096, whose slot 0 is owned by page 0.
With `mmap` failing, `resolveConflict(5, 0)` changes nothing, and yet both
`allocateSlot(5, 0)` and `getSlot(5, 0)` return the non-null address 4096,
`allocateSlot` having overwritten the owner of the record with 5. -/
theorem acquisition_failure_swallowed :
    ((MemoryManager.init 4096).allocateSlot 0 0 8192).2.virtualPages.getD 5 nullptr = 4096 ∧
    ((MemoryManager.init 4096).allocateSlot 0 0 8192).2.arrMetadata 4096 = some ⟨0, true⟩ ∧
    ((MemoryManager.init 4096).allocateSlot 0 0 8192).2.resolveConflict 5 0 MAP_FAILED
      = ((MemoryManager.init 4096).allocateSlot 0 0 8192).2 ∧
    (((MemoryManager.init 4096).allocateSlot 0 0 8192).2.allocateSlot 5 0 MAP_FAILED).1 = 4096 ∧
    (((MemoryManager.init 4096).allocateSlot 0 0 8192).2.allocateSlot 5 0 MAP_FAILED).2.arrMetadata
      4096 = some ⟨5, true⟩ ∧
    (((MemoryManager.init 4096).allocateSlot 0 0 8192).2.getSlot 5 0 MAP_FAILED).1 = 4096 ∧
    (4096 : Nat) ≠ nullptr := by
  refine ⟨?_, ?_, resolveConflict_failed _ 5 0 ?_, ?_, ?_, ?_, by decide⟩ <;>
    (rw [init_acquired 4096 (by decide)]; decide)

/-- C9 (a conflicting allocation does not disturb the first owner): in a
reachable state, let `allocateSlot(v1, s)` return the non-null address `A`, and
let a distinct virtual page `v2` be bound to the same physical page as `v1`
afterwards.  When `allocateSlot(v2, s)` then runs, `mmap` succeeding with the
fresh page `m2`, the tracked list grows by `m2`, the binding of `v1` is
unchanged, `getSlot(v1, s)` returns `A`, `getSlot(v2, s)` returns the address of
slot `s` on `m2`, which lies inside the page `m2`, and neither read changes
the state. -/
theorem conflict_keeps_first_owner (mm : MemoryManager) (hR : Reachable mm)
    (v1 v2 s m1 m2 m3 m4 : Nat) (hne : v1 ≠ v2)
    (hc1 : MmapContract mm m1)
    (hA : (mm.allocateSlot v1 s m1).1 ≠ nullptr)
    (hshare : (mm.allocateSlot v1 s m1).2.virtualPages.getD v2 nullptr
      = (mm.allocateSlot v1 s m1).2.virtualPages.getD v1 nullptr)
    (hs : s < SLOTS_PER_PAGE)
    (hm2 : FreshPage (mm.allocateSlot v1 s m1).2 m2) :
    ((mm.allocateSlot v1 s m1).2.allocateSlot v2 s m2).2.getPhysicalPages
      = (mm.allocateSlot v1 s m1).2.getPhysicalPages ++ [m2] ∧
    ((mm.allocateSlot v1 s m1).2.allocateSlot v2 s m2).2.virtualPages.getD v1 nullptr
      = (mm.allocateSlot v1 s m1).2.virtualPages.getD v1 nullptr ∧
    ((mm.allocateSlot v1 s m1).2.allocateSlot v2 s m2).2.getSlot v1 s m3
      = ((mm.allocateSlot v1 s m1).1, ((mm.allocateSlot v1 s m1).2.allocateSlot v2 s m2).2) ∧
    ((mm.allocateSlot v1 s m1).2.allocateSlot v2 s m2).2.getSlot v2 s m4
      = (m2 + s * SLOT_SIZE, ((mm.allocateSlot v1 s m1).2.allocateSlot v2 s m2).2) ∧
    m2 ≤ m2 + s * SLOT_SIZE ∧ m2 + s * SLOT_SIZE < m2 + PAGE_SIZE := by
  obtain ⟨hv, hb⟩ := allocateSlot_ne_null_bound mm v1 s m1 hA
  obtain ⟨hlen, hb1, haddr, hrec⟩ := allocateSlot_post mm v1 s m1 hv hb
  have hwf1 : WellFormed (mm.allocateSlot v1 s m1).2 :=
    (Reachable.allocateSlot mm v1 s m1 hR hc1).wellFormed
  have hv1 : v1 < INITIAL_VIRTUAL_PAGES := by rw [← hR.wellFormed.length_eq]; exact hv
  rw [toOwnerField_of_lt v1 hv1] at hrec
  have hP := hwf1.pages_valid _ (hwf1.bound_tracked v1 hb1)
  have hb2 : (mm.allocateSlot v1 s m1).2.virtualPages.getD v2 nullptr ≠ nullptr := by
    rw [hshare]; exact hb1
  have hv2 := getD_ne_null_lt _ _ hb2
  have hocc : MetaMap.occupied (mm.allocateSlot v1 s m1).2.arrMetadata
      (ptrAdd ((mm.allocateSlot v1 s m1).2.virtualPages.getD v2 nullptr) (slotOffset s))
      = true := by
    rw [hshare, ← haddr, occupied_eq_true_iff]; exact ⟨_, hrec, rfl⟩
  have hne2 : (mm.allocateSlot v1 s m1).1 ≠ m2 + s * SLOT_SIZE := by
    rw [haddr, ptrAdd_slot _ s hP.2.2 hs]
    exact slot_addr_ne _ _ s s hP.2.1 hm2.2.1
      (fun h => hm2.2.2.2 (h ▸ hwf1.bound_tracked v1 hb1)) hs hs
  rw [allocateSlot_occupied_fresh _ hwf1 v2 s m2 hb2 hocc hs hm2]
  dsimp only
  refine ⟨rfl, getD_set_ne _ _ _ _ _ (Ne.symm hne), ?_, ?_, Nat.le_add_right _ _, ?_⟩
  · apply getSlot_owned
    · dsimp only
      rw [getD_set_ne _ _ _ _ _ (Ne.symm hne)]; exact hb1
    · dsimp only
      rw [getD_set_ne _ _ _ _ _ (Ne.symm hne)]; exact haddr.symm
    · dsimp only
      rw [assign_other _ _ _ _ hne2]; exact hrec
  · apply getSlot_owned
    · dsimp only
      rw [getD_set_self _ _ _ _ hv2]; exact hm2.1
    · dsimp only
      rw [getD_set_self _ _ _ _ hv2]; exact ptrAdd_slot m2 s hm2.2.2.1 hs
    · exact assign_self _ _ _
  · unfold SLOTS_PER_PAGE PAGE_SIZE SLOT_SIZE at hs
    unfold PAGE_SIZE SLOT_SIZE
    omega

set_option maxRecDepth 20000 in
/-- C9 at a concrete input: the scenario of the specification, `allocate(0,0)`
then `allocate(5,0)` on a fresh manager. -/
theorem conflict_keeps_first_owner_witness :
    ((((MemoryManager.init 4096).allocateSlot 0 0 8192).2.allocateSlot 5 0 8192).2.getSlot 0 0 0).1
      = 4096 ∧
    ((((MemoryManager.init 4096).allocateSlot 0 0 8192).2.allocateSlot 5 0 8192).2.getSlot 5 0 0).1
      = 8192 := by
  have h := conflict_keeps_first_owner (MemoryManager.init 4096)
    (Reachable.init 4096 (by decide)) 0 5 0 8192 8192 0 0 (by decide)
    (by rw [init_acquired 4096 (by decide)]; decide)
    (by rw [init_acquired 4096 (by decide)]; decide)
    (by rw [init_acquired 4096 (by decide)]; decide)
    (by decide)
    (by rw [init_acquired 4096 (by decide)]; decide)
  refine ⟨?_, ?_⟩
  · rw [h.2.2.1]
    rw [init_acquired 4096 (by decide)]; decide
  · rw [h.2.2.2.1]
    decide


/-! ## Runs in which every acquisition succeeds -/

theorem occupied_assign_self (md : MetaMap) (a : Nat) (r : ArrMetadata) :
    MetaMap.occupied (MetaMap.assign md a r) a = r.occupiedFlg := by
  simp [MetaMap.occupied, MetaMap.assign]

theorem occupied_assign_other (md : MetaMap) (a k : Nat) (r : ArrMetadata) (h : k ≠ a) :
    MetaMap.occupied (MetaMap.assign md a r) k = MetaMap.occupied md k := by
  simp [MetaMap.occupied, MetaMap.assign, h]

theorem slot_addr_inj (p q s t : Nat) (hp : p % PAGE_SIZE = 0) (hq : q % PAGE_SIZE = 0)
    (hs : s < SLOTS_PER_PAGE) (ht : t < SLOTS_PER_PAGE)
    (h : p + s * SLOT_SIZE = q + t * SLOT_SIZE) : p = q ∧ s = t := by
  unfold PAGE_SIZE at hp hq
  unfold SLOTS_PER_PAGE PAGE_SIZE SLOT_SIZE at hs ht
  unfold SLOT_SIZE at h
  omega

/-- A call that leaves the state alone keeps the invariant; the log may grow
by null pointers. -/
theorem TraceInv.unchanged {mm : MemoryManager} {past : List Call} {log : List (Nat × Nat)}
    (h : TraceInv mm past log) (c : Call) (log2 : List (Nat × Nat))
    (hlog : ∀ e ∈ log2, e ∈ log ∨ e.2 = nullptr) :
    TraceInv mm (past ++ [c]) log2 := by
  refine ⟨h.wf, h.all_bound, h.keys_in_pages, ?_, ?_⟩
  · intro e he hn
    rcases hlog e he with h1 | h1
    · exact h.log_occupied e h1 hn
    · exact absurd h1 hn
  · intro a r ha ho
    obtain ⟨p, hp, t, ht, hat, m, hm⟩ := h.owners_called a r ha ho
    exact ⟨p, hp, t, ht, hat, m, List.mem_append_left _ hm⟩

/-- Writing an occupied record of owner `v` at slot `s` of a tracked page `P`,
as `allocateSlot(v, s)` does when it finds the slot free. -/
theorem TraceInv.claim {mm : MemoryManager} {past : List Call} {log : List (Nat × Nat)}
    (h : TraceInv mm past log) (P v s m : Nat) (hP : P ∈ mm.physicalPages)
    (hs : s < SLOTS_PER_PAGE) :
    TraceInv
      { virtualPages := mm.virtualPages
        physicalPages := mm.physicalPages
        arrMetadata := MetaMap.assign mm.arrMetadata (P + s * SLOT_SIZE) ⟨v, true⟩ }
      (past ++ [Call.allocateSlot v s m]) (log ++ [(v, P + s * SLOT_SIZE)]) := by
  refine ⟨⟨h.wf.length_eq, h.wf.bound_tracked, h.wf.pages_valid, h.wf.pages_nodup⟩,
    h.all_bound, ?_, ?_, ?_⟩
  · intro a r ha
    by_cases hk : a = P + s * SLOT_SIZE
    · exact ⟨P, hP, s, hs, hk⟩
    · dsimp only at ha
      rw [assign_other _ _ _ _ hk] at ha
      exact h.keys_in_pages a r ha
  · intro e he hn
    by_cases hk : e.2 = P + s * SLOT_SIZE
    · dsimp only
      rw [hk, occupied_assign_self]
    · dsimp only
      rw [occupied_assign_other _ _ _ _ hk]
      rw [List.mem_append, List.mem_singleton] at he
      rcases he with he | he
      · exact h.log_occupied e he hn
      · exact absurd (by rw [he]) hk
  · intro a r ha ho
    by_cases hk : a = P + s * SLOT_SIZE
    · dsimp only at ha
      rw [hk, assign_self] at ha
      cases ha
      exact ⟨P, hP, s, hs, hk, m, List.mem_append_right _ (List.mem_singleton_self _)⟩
    · dsimp only at ha
      rw [assign_other _ _ _ _ hk] at ha
      obtain ⟨p, hp, t, ht, hat, m', hm'⟩ := h.owners_called a r ha ho
      exact ⟨p, hp, t, ht, hat, m', List.mem_append_left _ hm'⟩

/-- Rebinding `v` to the fresh page `m` and writing the record `rec` at slot `s`
of `m`, as conflict resolution does inside `allocateSlot` (`rec` occupied, owner
`v`) and inside `getSlot` (`rec` not occupied). -/
theorem TraceInv.rebind {mm : MemoryManager} {past : List Call} {log : List (Nat × Nat)}
    (h : TraceInv mm past log) (v s m : Nat) (rec : ArrMetadata) (c : Call)
    (log2 : List (Nat × Nat))
    (hv : v < INITIAL_VIRTUAL_PAGES) (hs : s < SLOTS_PER_PAGE) (hm : FreshPage mm m)
    (hc : rec.occupiedFlg = true → ∃ m2, c = Call.allocateSlot rec.virtualPageId s m2)
    (hlog : ∀ e ∈ log2, e ∈ log ∨ (e.2 = m + s * SLOT_SIZE ∧ rec.occupiedFlg = true)) :
    TraceInv
      { virtualPages := mm.virtualPages.set v m
        physicalPages := mm.physicalPages ++ [m]
        arrMetadata := MetaMap.assign mm.arrMetadata (m + s * SLOT_SIZE) rec }
      (past ++ [c]) log2 := by
  have hvl : v < mm.virtualPages.length := by rw [h.wf.length_eq]; exact hv
  have hold : ∀ a r, mm.arrMetadata a = some r → a ≠ m + s * SLOT_SIZE := by
    intro a r ha
    obtain ⟨p, hp, t, ht, hat⟩ := h.keys_in_pages a r ha
    rw [hat]
    exact slot_addr_ne p m t s (h.wf.pages_valid p hp).2.1 hm.2.1
      (fun hpm => hm.2.2.2 (hpm ▸ hp)) ht hs
  refine ⟨h.wf.of_shape (Or.inr ⟨hm, hvl, rfl, rfl⟩), ?_, ?_, ?_, ?_⟩
  · intro i hi
    dsimp only
    by_cases hiv : v = i
    · subst hiv
      rw [getD_set_self _ _ _ _ hvl]; exact hm.1
    · rw [getD_set_ne _ _ _ _ _ hiv]; exact h.all_bound i hi
  · intro a r ha
    by_cases hk : a = m + s * SLOT_SIZE
    · exact ⟨m, List.mem_append_right _ (List.mem_singleton_self _), s, hs, hk⟩
    · dsimp only at ha
      rw [assign_other _ _ _ _ hk] at ha
      obtain ⟨p, hp, t, ht, hat⟩ := h.keys_in_pages a r ha
      exact ⟨p, List.mem_append_left _ hp, t, ht, hat⟩
  · intro e he hn
    dsimp only
    rcases hlog e he with h1 | ⟨h1, h2⟩
    · have hocc := h.log_occupied e h1 hn
      obtain ⟨r, hr, _⟩ := (occupied_eq_true_iff _ _).1 hocc
      rw [occupied_assign_other _ _ _ _ (hold _ r hr)]
      exact hocc
    · rw [h1, occupied_assign_self]; exact h2
  · intro a r ha ho
    by_cases hk : a = m + s * SLOT_SIZE
    · dsimp only at ha
      rw [hk, assign_self] at ha
      cases ha
      obtain ⟨m2, hm2⟩ := hc ho
      exact ⟨m, List.mem_append_right _ (List.mem_singleton_self _), s, hs, hk, m2,
        List.mem_append_right _ (by rw [hm2]; exact List.mem_singleton_self _)⟩
    · dsimp only at ha
      rw [assign_other _ _ _ _ hk] at ha
      obtain ⟨p, hp, t, ht, hat, m', hm'⟩ := h.owners_called a r ha ho
      exact ⟨p, List.mem_append_left _ hp, t, ht, hat, m', List.mem_append_left _ hm'⟩


/-- The three outcomes of `allocateSlot` when the acquisition, if any, succeeds:
an invalid page id, a free slot claimed in place, an occupied slot relocated to
the fresh page. -/
theorem allocateSlot_cases {mm : MemoryManager} {past : List Call} {log : List (Nat × Nat)}
    (h : TraceInv mm past log) (v s m : Nat) (hs : s < SLOTS_PER_PAGE) (hm : FreshPage mm m) :
    (INITIAL_VIRTUAL_PAGES ≤ v ∧ mm.allocateSlot v s m = (nullptr, mm)) ∨
    (v < INITIAL_VIRTUAL_PAGES ∧ ∃ P ∈ mm.physicalPages, P ≠ nullptr ∧
      MetaMap.occupied mm.arrMetadata (P + s * SLOT_SIZE) = false ∧
      mm.allocateSlot v s m =
        (P + s * SLOT_SIZE,
          { virtualPages := mm.virtualPages
            physicalPages := mm.physicalPages
            arrMetadata := MetaMap.assign mm.arrMetadata (P + s * SLOT_SIZE) ⟨v, true⟩ })) ∨
    (v < INITIAL_VIRTUAL_PAGES ∧
      mm.allocateSlot v s m =
        (m + s * SLOT_SIZE,
          { virtualPages := mm.virtualPages.set v m
            physicalPages := mm.physicalPages ++ [m]
            arrMetadata := MetaMap.assign mm.arrMetadata (m + s * SLOT_SIZE) ⟨v, true⟩ })) := by
  by_cases hv : INITIAL_VIRTUAL_PAGES ≤ v
  · exact Or.inl ⟨hv, allocateSlot_invalid mm v s m (by rw [h.wf.length_eq]; exact hv)⟩
  have hv1 : v < INITIAL_VIRTUAL_PAGES := Nat.lt_of_not_le hv
  have hvl : v < mm.virtualPages.length := by rw [h.wf.length_eq]; exact hv1
  have hb := h.all_bound v hv1
  have hP := h.wf.bound_tracked v hb
  have hPv := h.wf.pages_valid _ hP
  have haddr := ptrAdd_slot _ s hPv.2.2 hs
  cases hocc : MetaMap.occupied mm.arrMetadata
      (ptrAdd (mm.virtualPages.getD v nullptr) (slotOffset s))
  · refine Or.inr (Or.inl ⟨hv1, _, hP, hb, by rw [← haddr]; exact hocc, ?_⟩)
    rw [allocateSlot_free mm v s m hvl hb hocc, haddr, toOwnerField_of_lt v hv1]
  · exact Or.inr (Or.inr ⟨hv1, allocateSlot_occupied_fresh mm h.wf v s m hb hocc hs hm⟩)

/-- The outcomes of `getSlot` when the acquisition, if any, succeeds: the state
is left alone and the pointer returned is null or the address of an occupied
record owned by `v`, or conflict resolution rebinds `v` to the fresh page and
the call returns null. -/
theorem getSlot_cases {mm : MemoryManager} {past : List Call} {log : List (Nat × Nat)}
    (h : TraceInv mm past log) (v s m : Nat) (hs : s < SLOTS_PER_PAGE) (hm : FreshPage mm m) :
    (mm.getSlot v s m = (nullptr, mm)) ∨
    (v < INITIAL_VIRTUAL_PAGES ∧ ∃ P ∈ mm.physicalPages,
      mm.arrMetadata (P + s * SLOT_SIZE) = some ⟨v, true⟩ ∧
      mm.getSlot v s m = (P + s * SLOT_SIZE, mm)) ∨
    (v < INITIAL_VIRTUAL_PAGES ∧
      mm.getSlot v s m =
        (nullptr,
          { virtualPages := mm.virtualPages.set v m
            physicalPages := mm.physicalPages ++ [m]
            arrMetadata := MetaMap.assign mm.arrMetadata (m + s * SLOT_SIZE) ⟨0, false⟩ })) := by
  by_cases hv : INITIAL_VIRTUAL_PAGES ≤ v
  · exact Or.inl (getSlot_invalid mm v s m (by rw [h.wf.length_eq]; exact hv))
  have hv1 : v < INITIAL_VIRTUAL_PAGES := Nat.lt_of_not_le hv
  have hvl : v < mm.virtualPages.length := by rw [h.wf.length_eq]; exact hv1
  have hb := h.all_bound v hv1
  have hP := h.wf.bound_tracked v hb
  have hPv := h.wf.pages_valid _ hP
  have haddr := ptrAdd_slot _ s hPv.2.2 hs
  cases hrec : mm.arrMetadata (ptrAdd (mm.virtualPages.getD v nullptr) (slotOffset s)) with
  | none => exact Or.inl (getSlot_absent mm v s m hrec)
  | some r =>
    obtain ⟨o, f⟩ := r
    cases f
    · left
      rw [getSlot_noconflict mm v s m _ hvl hb hrec (Or.inl rfl)]
      simp
    · by_cases ho : o = v
      · subst ho
        refine Or.inr (Or.inl ⟨hv1, _, hP, by rw [← haddr]; exact hrec, ?_⟩)
        rw [getSlot_owned mm o s m _ hb rfl hrec, haddr]
      · refine Or.inr (Or.inr ⟨hv1, ?_⟩)
        rw [getSlot_conflict_acquired mm v s m _ hvl hb hrec rfl ho hm.ne_failed hm.ne_null,
          ptrAdd_slot m s hm.2.2.1 hs]

theorem allocLog_cons (mm : MemoryManager) (c : Call) (cs : List Call) :
    allocLog mm (c :: cs) = allocLog mm [c] ++ allocLog (c.exec mm).2 cs := by
  cases c <;> simp [allocLog, Call.exec]

/-- One call keeps the invariant. -/
theorem traceInv_step {mm : MemoryManager} {past : List Call} {log : List (Nat × Nat)}
    (h : TraceInv mm past log) (c : Call) (hs : c.slotId < SLOTS_PER_PAGE)
    (hm : FreshPage mm c.mmapRet) :
    TraceInv (c.exec mm).2 (past ++ [c]) (log ++ allocLog mm [c]) := by
  cases c with
  | allocateSlot v s m =>
    simp only [Call.exec, allocLog]
    rcases allocateSlot_cases h v s m hs hm with ⟨_, e⟩ | ⟨_, P, hP, _, _, e⟩ | ⟨hv, e⟩
    · rw [e]
      refine h.unchanged _ _ ?_
      intro x hx
      rw [List.mem_append, List.mem_singleton] at hx
      rcases hx with hx | hx
      · exact Or.inl hx
      · exact Or.inr (by rw [hx])
    · rw [e]
      exact h.claim P v s m hP hs
    · rw [e]
      refine h.rebind v s m ⟨v, true⟩ _ _ hv hs hm (fun _ => ⟨m, rfl⟩) ?_
      intro x hx
      rw [List.mem_append, List.mem_singleton] at hx
      rcases hx with hx | hx
      · exact Or.inl hx
      · exact Or.inr ⟨by rw [hx], rfl⟩
  | getSlot v s m =>
    simp only [Call.exec, allocLog, List.append_nil]
    rcases getSlot_cases h v s m hs hm with e | ⟨_, P, _, _, e⟩ | ⟨hv, e⟩
    · rw [e]
      exact h.unchanged _ _ (fun x hx => Or.inl hx)
    · rw [e]
      exact h.unchanged _ _ (fun x hx => Or.inl hx)
    · rw [e]
      refine h.rebind v s m ⟨0, false⟩ _ _ hv hs hm (fun hf => ?_) (fun x hx => Or.inl hx)
      cases hf

/-- A run in which every acquisition succeeds and every slot id is in range
keeps the invariant. -/
theorem traceInv_run : ∀ (cs : List Call) (mm : MemoryManager) (past : List Call)
    (log : List (Nat × Nat)), TraceInv mm past log → Acquiring mm cs →
    (∀ c ∈ cs, c.slotId < SLOTS_PER_PAGE) →
    TraceInv (run mm cs) (past ++ cs) (log ++ allocLog mm cs)
  | [], mm, past, log, h, _, _ => by
    simpa [run, allocLog] using h
  | c :: cs, mm, past, log, h, hacq, hs => by
    have h1 := traceInv_step h c (hs c (List.mem_cons_self _ _)) hacq.1
    have h2 := traceInv_run cs _ _ _ h1 hacq.2 (fun x hx => hs x (List.mem_cons_of_mem _ hx))
    rw [allocLog_cons, ← List.append_assoc]
    simpa [run] using h2

/-- The constructor, its acquisition succeeding, establishes the invariant. -/
theorem traceInv_init (m0 : Nat) (h0 : FreshPage MemoryManager.empty m0) :
    TraceInv (MemoryManager.init m0) [] [] := by
  refine ⟨wellFormed_init m0 (Or.inr h0), ?_, ?_, ?_, ?_⟩
  · intro i hi
    rw [init_acquired m0 h0.ne_failed]
    simp only [List.getD_eq_getElem?_getD, List.getElem?_replicate, hi, if_true,
      Option.getD_some]
    exact h0.1
  · intro a r ha
    rw [init_acquired m0 h0.ne_failed] at ha
    cases ha
  · intro e he
    cases he
  · intro a r ha
    rw [init_acquired m0 h0.ne_failed] at ha
    cases ha


/-! ## C3, C10 -/

/-- C3 (absent read): start from a freshly constructed manager whose page
acquisition succeeded and run any sequence of `allocateSlot` / `getSlot` calls
in which every acquisition succeeds, every slot id is below `SLOTS_PER_PAGE`,
and `allocateSlot(v, s)` is never called.  Then `getSlot(v, s)`, for any `v` and
any `s < SLOTS_PER_PAGE`, returns `nullptr`. -/
theorem absent_read (m0 : Nat) (cs : List Call) (v s m : Nat)
    (h0 : FreshPage MemoryManager.empty m0)
    (hacq : Acquiring (MemoryManager.init m0) cs)
    (hslots : ∀ c ∈ cs, c.slotId < SLOTS_PER_PAGE)
    (hnever : ∀ m2, Call.allocateSlot v s m2 ∉ cs)
    (hs : s < SLOTS_PER_PAGE)
    (hm : FreshPage (run (MemoryManager.init m0) cs) m) :
    ((run (MemoryManager.init m0) cs).getSlot v s m).1 = nullptr := by
  have h := traceInv_run cs _ [] [] (traceInv_init m0 h0) hacq hslots
  rw [List.nil_append, List.nil_append] at h
  rcases getSlot_cases h v s m hs hm with e | ⟨_, P, hP, hrec, _⟩ | ⟨_, e⟩
  · rw [e]
  · exfalso
    obtain ⟨p, hp, t, ht, hat, m2, hm2⟩ := h.owners_called _ _ hrec rfl
    have hst := (slot_addr_inj P p s t (h.wf.pages_valid P hP).2.1
      (h.wf.pages_valid p hp).2.1 hs ht hat).2
    subst hst
    exact hnever m2 hm2
  · rw [e]

set_option maxRecDepth 20000 in
/-- C3 at a concrete input: after `allocateSlot(0, 0)` and `getSlot(5, 0)` on a
fresh manager, slot (0, 2) of Test 2 of `main.cpp` reads as absent. -/
theorem absent_read_witness :
    ((run (MemoryManager.init 4096)
      [Call.allocateSlot 0 0 8192, Call.getSlot 5 0 8192]).getSlot 0 2 12288).1 = nullptr :=
  absent_read 4096 [Call.allocateSlot 0 0 8192, Call.getSlot 5 0 8192] 0 2 12288
    (by decide)
    (by rw [init_acquired 4096 (by decide)]; decide)
    (by decide)
    (by intro m2 hmem; simp at hmem)
    (by decide)
    (by rw [init_acquired 4096 (by decide)]; decide)

/-- C10 (no aliasing of allocations): start from a freshly constructed manager
whose page acquisition succeeded and run any sequence of `allocateSlot` /
`getSlot` calls in which every acquisition succeeds and every slot id is below
`SLOTS_PER_PAGE`.  Then `allocateSlot(v, s)` on a valid `v`, with
`s < SLOTS_PER_PAGE` and its own acquisition succeeding, returns a non-null
address that differs from every pointer `allocateSlot` has returned so far,
for another virtual page or for `v` itself, and `getSlot(v, s)` then returns
that same address. -/
theorem no_aliasing_of_allocations (m0 : Nat) (cs : List Call) (v s m m2 : Nat)
    (h0 : FreshPage MemoryManager.empty m0)
    (hacq : Acquiring (MemoryManager.init m0) cs)
    (hslots : ∀ c ∈ cs, c.slotId < SLOTS_PER_PAGE)
    (hv : v < INITIAL_VIRTUAL_PAGES) (hs : s < SLOTS_PER_PAGE)
    (hm : FreshPage (run (MemoryManager.init m0) cs) m) :
    ((run (MemoryManager.init m0) cs).allocateSlot v s m).1 ≠ nullptr ∧
    (∀ e ∈ allocLog (MemoryManager.init m0) cs,
      e.2 ≠ ((run (MemoryManager.init m0) cs).allocateSlot v s m).1) ∧
    (((run (MemoryManager.init m0) cs).allocateSlot v s m).2.getSlot v s m2).1
      = ((run (MemoryManager.init m0) cs).allocateSlot v s m).1 := by
  have h := traceInv_run cs _ [] [] (traceInv_init m0 h0) hacq hslots
  rw [List.nil_append, List.nil_append] at h
  have hnn : ((run (MemoryManager.init m0) cs).allocateSlot v s m).1 ≠ nullptr := by
    rcases allocateSlot_cases h v s m hs hm with ⟨hv2, _⟩ | ⟨_, P, _, hP0, _, e⟩ | ⟨_, e⟩
    · exact absurd hv (Nat.not_lt.mpr hv2)
    · rw [e]
      unfold nullptr at *
      dsimp only
      omega
    · rw [e]
      have := hm.1
      unfold nullptr at *
      dsimp only
      omega
  refine ⟨hnn, ?_, getSlot_after_allocateSlot _ h.wf v s m m2 hnn⟩
  intro e he heq
  have hocc := h.log_occupied e he (by rw [heq]; exact hnn)
  rcases allocateSlot_cases h v s m hs hm with ⟨hv2, _⟩ | ⟨_, P, _, _, hfree, e2⟩ | ⟨_, e2⟩
  · exact absurd hv (Nat.not_lt.mpr hv2)
  · rw [e2] at heq
    dsimp only at heq
    rw [heq, hfree] at hocc
    cases hocc
  · rw [e2] at heq
    dsimp only at heq
    obtain ⟨r, hr, _⟩ := (occupied_eq_true_iff _ _).1 hocc
    obtain ⟨p, hp, t, ht, hat⟩ := h.keys_in_pages _ r hr
    rw [heq] at hat
    have hpm := (slot_addr_inj m p s t hm.2.1 (h.wf.pages_valid p hp).2.1 hs ht hat).1
    exact hm.2.2.2 (hpm ▸ hp)

theorem run_append (cs ds : List Call) : ∀ mm : MemoryManager,
    run mm (cs ++ ds) = run (run mm cs) ds := by
  induction cs with
  | nil => intro mm; rfl
  | cons c cs ih => intro mm; exact ih _

theorem acquiring_append (cs ds : List Call) : ∀ mm : MemoryManager,
    Acquiring mm cs → Acquiring (run mm cs) ds → Acquiring mm (cs ++ ds) := by
  induction cs with
  | nil => intro mm _ h; exact h
  | cons c cs ih => intro mm h1 h2; exact ⟨h1.1, ih _ h1.2 h2⟩

theorem fillCalls_succ (k : Nat) :
    fillCalls (k + 1) = fillCalls k ++ [Call.allocateSlot 0 k 8192] := by
  simp [fillCalls, List.range_succ]

/-- The first `k` rounds of the loop of Test 5 on a fresh manager on page
4096: no acquisition is needed, the table and the tracked list are as the
constructor left them, and no record lies at or beyond slot `k`. -/
theorem fillCalls_state (k : Nat) (hk : k ≤ SLOTS_PER_PAGE) :
    Acquiring (MemoryManager.init 4096) (fillCalls k) ∧
    (run (MemoryManager.init 4096) (fillCalls k)).virtualPages
      = List.replicate INITIAL_VIRTUAL_PAGES 4096 ∧
    (run (MemoryManager.init 4096) (fillCalls k)).physicalPages = [4096] ∧
    ∀ a, 4096 + k * SLOT_SIZE ≤ a →
      (run (MemoryManager.init 4096) (fillCalls k)).arrMetadata a = none := by
  induction k with
  | zero =>
    simp only [fillCalls, List.range_zero, List.map_nil, run, Acquiring, true_and]
    rw [init_acquired 4096 (by decide)]
    exact ⟨rfl, rfl, fun _ _ => rfl⟩
  | succ k ih =>
    obtain ⟨hacq, hvp, hpp, hmd⟩ := ih (Nat.le_of_succ_le hk)
    have hks : k < SLOTS_PER_PAGE := hk
    have hget : (run (MemoryManager.init 4096) (fillCalls k)).virtualPages.getD 0 nullptr
        = 4096 := by
      rw [hvp]; rfl
    have hfresh : FreshPage (run (MemoryManager.init 4096) (fillCalls k)) 8192 := by
      unfold FreshPage
      rw [hpp]
      decide
    have haddr : ptrAdd 4096 (slotOffset k) = 4096 + k * SLOT_SIZE :=
      ptrAdd_slot 4096 k (by decide) hks
    have e := allocateSlot_free (run (MemoryManager.init 4096) (fillCalls k)) 0 k 8192
      (by rw [hvp, List.length_replicate]; decide)
      (by rw [hget]; decide)
      (by rw [hget, haddr]; simp [MetaMap.occupied, hmd _ (Nat.le_refl _)])
    rw [fillCalls_succ, run_append]
    refine ⟨acquiring_append _ _ _ hacq ⟨hfresh, trivial⟩, ?_, ?_, ?_⟩
    · simp only [run, Call.exec]; rw [e]; exact hvp
    · simp only [run, Call.exec]; rw [e]; exact hpp
    · intro a ha
      simp only [run, Call.exec]
      rw [e, hget, haddr]
      dsimp only
      rw [assign_other _ _ _ _ (by unfold SLOT_SIZE at ha ⊢; omega)]
      exact hmd a (by unfold SLOT_SIZE at ha ⊢; omega)

set_option maxRecDepth 20000 in
/-- C10 at a concrete input, the scenario of Test 5 of `main.cpp`: on a fresh
manager on page 4096, after `allocateSlot(0, i)` for all 512 slots,
`allocateSlot(1, 0)`,
acquiring page 8192, returns a non-null pointer that none of the 512 earlier
calls returned, and `getSlot(1, 0)` returns the same pointer. -/
theorem no_aliasing_of_allocations_witness :
    ((run (MemoryManager.init 4096) (fillCalls SLOTS_PER_PAGE)).allocateSlot 1 0 8192).1
      ≠ nullptr ∧
    (∀ e ∈ allocLog (MemoryManager.init 4096) (fillCalls SLOTS_PER_PAGE),
      e.2 ≠ ((run (MemoryManager.init 4096) (fillCalls SLOTS_PER_PAGE)).allocateSlot 1 0 8192).1) ∧
    (((run (MemoryManager.init 4096) (fillCalls SLOTS_PER_PAGE)).allocateSlot 1 0 8192).2.getSlot
        1 0 0).1
      = ((run (MemoryManager.init 4096) (fillCalls SLOTS_PER_PAGE)).allocateSlot 1 0 8192).1 :=
  by
  have hfill := fillCalls_state SLOTS_PER_PAGE (Nat.le_refl _)
  have hslots : ∀ c ∈ fillCalls SLOTS_PER_PAGE, c.slotId < SLOTS_PER_PAGE := by
    intro c hc
    simp only [fillCalls, List.mem_map, List.mem_range] at hc
    obtain ⟨i, hi, rfl⟩ := hc
    exact hi
  have hfresh : FreshPage (run (MemoryManager.init 4096) (fillCalls SLOTS_PER_PAGE)) 8192 := by
    unfold FreshPage
    rw [hfill.2.2.1]
    decide
  exact no_aliasing_of_allocations 4096 (fillCalls SLOTS_PER_PAGE) 1 0 8192 0
    (by decide) hfill.1 hslots (by decide) (by decide) hfresh


/-! ## C11, C12, C13 -/

/-- C11 (no null tracked pages): in every reachable state, whether the
acquisitions made so far succeeded or failed, the list returned by
`getPhysicalPages()` contains neither `nullptr` nor `MAP_FAILED`. -/
theorem no_null_tracked_pages (mm : MemoryManager) (hR : Reachable mm) :
    nullptr ∉ mm.getPhysicalPages ∧ MAP_FAILED ∉ mm.getPhysicalPages := by
  have hwf := hR.wellFormed
  constructor
  · intro h
    exact (hwf.pages_valid _ h).1 rfl
  · intro h
    have h2 := (hwf.pages_valid _ h).2.1
    revert h2
    decide

set_option maxRecDepth 20000 in
/-- C11 at a concrete input: the state after `allocateSlot(0, 0)` and an
`allocateSlot(5, 0)` whose acquisition fails, on a fresh manager. -/
theorem no_null_tracked_pages_witness :
    nullptr ∉ (((MemoryManager.init 4096).allocateSlot 0 0 8192).2.allocateSlot 5 0
      MAP_FAILED).2.getPhysicalPages ∧
    MAP_FAILED ∉ (((MemoryManager.init 4096).allocateSlot 0 0 8192).2.allocateSlot 5 0
      MAP_FAILED).2.getPhysicalPages :=
  no_null_tracked_pages _
    (Reachable.allocateSlot _ 5 0 MAP_FAILED
      (Reachable.allocateSlot _ 0 0 8192 (Reachable.init 4096 (by decide))
        (by rw [init_acquired 4096 (by decide)]; decide))
      (Or.inl rfl))

/-- What `allocateSlot` returns and leaves on a bound page of a reachable state,
for a slot id of the page, whether the acquisition it may need succeeds or
fails. -/
theorem allocateSlot_result (mm : MemoryManager) (hR : Reachable mm) (v s m : Nat)
    (hc : MmapContract mm m)
    (hb : mm.virtualPages.getD v nullptr ≠ nullptr) (hs : s < SLOTS_PER_PAGE) :
    (mm.allocateSlot v s m).2.virtualPages.getD v nullptr ≠ nullptr ∧
    (mm.allocateSlot v s m).2.virtualPages.getD v nullptr % PAGE_SIZE = 0 ∧
    (mm.allocateSlot v s m).1
      = (mm.allocateSlot v s m).2.virtualPages.getD v nullptr + s * SLOT_SIZE ∧
    (mm.allocateSlot v s m).1 ≠ nullptr ∧
    (mm.allocateSlot v s m).2.arrMetadata (mm.allocateSlot v s m).1 = some ⟨v, true⟩ := by
  have hv : v < mm.virtualPages.length := getD_ne_null_lt _ _ hb
  have hv1 : v < INITIAL_VIRTUAL_PAGES := by rw [← hR.wellFormed.length_eq]; exact hv
  obtain ⟨_, hb2, haddr, hrec⟩ := allocateSlot_post mm v s m hv hb
  have hwf2 : WellFormed (mm.allocateSlot v s m).2 :=
    (Reachable.allocateSlot mm v s m hR hc).wellFormed
  have hP := hwf2.pages_valid _ (hwf2.bound_tracked v hb2)
  rw [ptrAdd_slot _ s hP.2.2 hs] at haddr
  rw [toOwnerField_of_lt v hv1] at hrec
  refine ⟨hb2, hP.2.1, haddr, ?_, hrec⟩
  rw [haddr]
  have := hP.1
  unfold nullptr at *
  omega

/-- C12 (allocate postcondition): in a reachable state, for every bound virtual
page id `v` and every slot id `s < SLOTS_PER_PAGE` (the boundary
`SLOTS_PER_PAGE - 1` included), `allocateSlot(v, s)` returns a non-null address
equal to `base + s * 8`, where `base` is the page bound to `v` after the call,
and after the call the record at that address is occupied with owner exactly
`v`: the 15-bit owner field leaves `v` as it is. -/
theorem allocateSlot_postcondition (mm : MemoryManager) (hR : Reachable mm) (v s m : Nat)
    (hc : MmapContract mm m)
    (hb : mm.virtualPages.getD v nullptr ≠ nullptr) (hs : s < SLOTS_PER_PAGE) :
    (mm.allocateSlot v s m).1 ≠ nullptr ∧
    (mm.allocateSlot v s m).1
      = (mm.allocateSlot v s m).2.virtualPages.getD v nullptr + s * 8 ∧
    (mm.allocateSlot v s m).2.arrMetadata (mm.allocateSlot v s m).1 = some ⟨v, true⟩ ∧
    toOwnerField v = v := by
  obtain ⟨_, _, haddr, hnn, hrec⟩ := allocateSlot_result mm hR v s m hc hb hs
  have hv : v < mm.virtualPages.length := getD_ne_null_lt _ _ hb
  exact ⟨hnn, haddr, hrec,
    toOwnerField_of_lt v (by rw [← hR.wellFormed.length_eq]; exact hv)⟩

set_option maxRecDepth 20000 in
/-- C12 at a concrete input: Test 7 of `main.cpp`, the boundary slot 511 of
virtual page 0 on a fresh manager on page 4096. -/
theorem allocateSlot_postcondition_witness :
    ((MemoryManager.init 4096).allocateSlot 0 (SLOTS_PER_PAGE - 1) 8192).1 ≠ nullptr ∧
    ((MemoryManager.init 4096).allocateSlot 0 (SLOTS_PER_PAGE - 1) 8192).1
      = ((MemoryManager.init 4096).allocateSlot 0 (SLOTS_PER_PAGE - 1) 8192).2.virtualPages.getD
          0 nullptr + (SLOTS_PER_PAGE - 1) * 8 ∧
    ((MemoryManager.init 4096).allocateSlot 0 (SLOTS_PER_PAGE - 1) 8192).2.arrMetadata
      ((MemoryManager.init 4096).allocateSlot 0 (SLOTS_PER_PAGE - 1) 8192).1 = some ⟨0, true⟩ ∧
    toOwnerField 0 = 0 :=
  allocateSlot_postcondition (MemoryManager.init 4096) (Reachable.init 4096 (by decide))
    0 (SLOTS_PER_PAGE - 1) 8192
    (by rw [init_acquired 4096 (by decide)]; decide)
    (by rw [init_acquired 4096 (by decide)]; decide)
    (by decide)

/-- C13 (distinct slots get distinct addresses): in a reachable state, for
every bound virtual page `v` and distinct slot ids `s1`, `s2` below
`SLOTS_PER_PAGE`, `allocateSlot(v, s1)` followed by `allocateSlot(v, s2)` returns
two non-null addresses that differ, whether or not a page is acquired on the
way. -/
theorem distinct_slots_distinct_addresses (mm : MemoryManager) (hR : Reachable mm)
    (v s1 s2 m1 m2 : Nat)
    (hb : mm.virtualPages.getD v nullptr ≠ nullptr)
    (hs1 : s1 < SLOTS_PER_PAGE) (hs2 : s2 < SLOTS_PER_PAGE) (hne : s1 ≠ s2)
    (hc1 : MmapContract mm m1)
    (hc2 : MmapContract (mm.allocateSlot v s1 m1).2 m2) :
    (mm.allocateSlot v s1 m1).1 ≠ nullptr ∧
    ((mm.allocateSlot v s1 m1).2.allocateSlot v s2 m2).1 ≠ nullptr ∧
    (mm.allocateSlot v s1 m1).1 ≠ ((mm.allocateSlot v s1 m1).2.allocateSlot v s2 m2).1 := by
  obtain ⟨hb1, hal1, haddr1, hnn1, _⟩ := allocateSlot_result mm hR v s1 m1 hc1 hb hs1
  obtain ⟨_, hal2, haddr2, hnn2, _⟩ := allocateSlot_result _
    (Reachable.allocateSlot mm v s1 m1 hR hc1) v s2 m2 hc2 hb1 hs2
  refine ⟨hnn1, hnn2, ?_⟩
  intro h
  rw [haddr1, haddr2] at h
  exact hne (slot_addr_inj _ _ s1 s2 hal1 hal2 hs1 hs2 h).2

set_option maxRecDepth 20000 in
/-- C13 at a concrete input: Test 6 of `main.cpp`, slots 0 and 1 of virtual page
2 on a fresh manager. -/
theorem distinct_slots_distinct_addresses_witness :
    ((MemoryManager.init 4096).allocateSlot 2 0 8192).1 ≠ nullptr ∧
    (((MemoryManager.init 4096).allocateSlot 2 0 8192).2.allocateSlot 2 1 8192).1 ≠ nullptr ∧
    ((MemoryManager.init 4096).allocateSlot 2 0 8192).1
      ≠ (((MemoryManager.init 4096).allocateSlot 2 0 8192).2.allocateSlot 2 1 8192).1 :=
  distinct_slots_distinct_addresses (MemoryManager.init 4096)
    (Reachable.init 4096 (by decide)) 2 0 1 8192 8192
    (by rw [init_acquired 4096 (by decide)]; decide)
    (by decide) (by decide) (by decide)
    (by rw [init_acquired 4096 (by decide)]; decide)
    (by rw [init_acquired 4096 (by decide)]; decide)


/-! ## C14, C15: what `resolveConflict` does to the two records -/

set_option maxRecDepth 20000 in
/-- C14 fails on the code: after `allocateSlot(0, 0)` on a fresh manager (page
4096), virtual page 5 is bound to page 4096 and the record at its slot 0,
address 4096, is `{0, true}`.  `resolveConflict(5, 0)`, `mmap` succeeding with
page 8192, rebinds page 5 to 8192, and the record at the new address 8192 is
`{0, false}`, not the record that was stored at the old address. -/
theorem resolveConflict_does_not_migrate :
    ((MemoryManager.init 4096).allocateSlot 0 0 8192).2.virtualPages.getD 5 nullptr = 4096 ∧
    ((MemoryManager.init 4096).allocateSlot 0 0 8192).2.arrMetadata (4096 + 0 * 8)
      = some ⟨0, true⟩ ∧
    (((MemoryManager.init 4096).allocateSlot 0 0 8192).2.resolveConflict 5 0 8192).virtualPages.getD
      5 nullptr = 8192 ∧
    (((MemoryManager.init 4096).allocateSlot 0 0 8192).2.resolveConflict 5 0 8192).physicalPages
      = [4096, 8192] ∧
    (((MemoryManager.init 4096).allocateSlot 0 0 8192).2.resolveConflict 5 0 8192).arrMetadata
      (8192 + 0 * 8) = some ⟨0, false⟩ ∧
    (((MemoryManager.init 4096).allocateSlot 0 0 8192).2.resolveConflict 5 0 8192).arrMetadata
      (8192 + 0 * 8)
      ≠ ((MemoryManager.init 4096).allocateSlot 0 0 8192).2.arrMetadata (4096 + 0 * 8) := by
  refine ⟨?_, ?_, ?_, ?_, ?_, ?_⟩ <;>
    (rw [init_acquired 4096 (by decide)]; decide)

set_option maxRecDepth 20000 in
/-- C15 fails on the code: in the same scenario, after `resolveConflict(5, 0)`
has rebound virtual page 5 from page 4096 to the new page 8192, the record at
the old address 4096 is still `{0, true}`: it is still marked occupied. -/
theorem resolveConflict_does_not_clear :
    ((MemoryManager.init 4096).allocateSlot 0 0 8192).2.virtualPages.getD 5 nullptr = 4096 ∧
    (((MemoryManager.init 4096).allocateSlot 0 0 8192).2.resolveConflict 5 0 8192).virtualPages.getD
      5 nullptr = 8192 ∧
    (((MemoryManager.init 4096).allocateSlot 0 0 8192).2.resolveConflict 5 0 8192).arrMetadata
      (4096 + 0 * 8) = some ⟨0, true⟩ ∧
    MetaMap.occupied
      (((MemoryManager.init 4096).allocateSlot 0 0 8192).2.resolveConflict 5 0 8192).arrMetadata
      (4096 + 0 * 8) = true := by
  refine ⟨?_, ?_, ?_, ?_⟩ <;>
    (rw [init_acquired 4096 (by decide)]; decide)

/-! ## C19, C20 -/

/-- C19 (a read can mutate state): for a slot id `s < SLOTS_PER_PAGE`, when
`getSlot(v2, s)` finds at its candidate address an occupied record whose owner
`v1` differs from `v2`, and `mmap` succeeds with the fresh page `m`, the call
returns `nullptr`, the tracked list grows by exactly the page `m`, `v2` is
rebound to `m`, and the record at slot `s` of `m` is `{0, false}`, not
occupied.  The address of that slot is `m + s * 8`, and its eight bytes, the
ones line 165 copies, lie inside the page `m`. -/
theorem getSlot_conflict_mutates (mm : MemoryManager) (v1 v2 s m : Nat)
    (hb : mm.virtualPages.getD v2 nullptr ≠ nullptr)
    (hrec : mm.arrMetadata (ptrAdd (mm.virtualPages.getD v2 nullptr) (slotOffset s))
      = some ⟨v1, true⟩)
    (hne : v1 ≠ v2) (hs : s < SLOTS_PER_PAGE) (hm : FreshPage mm m) :
    (mm.getSlot v2 s m).1 = nullptr ∧
    (mm.getSlot v2 s m).2.getPhysicalPages = mm.getPhysicalPages ++ [m] ∧
    (mm.getSlot v2 s m).2.getPhysicalPages.length = mm.getPhysicalPages.length + 1 ∧
    (mm.getSlot v2 s m).2.virtualPages.getD v2 nullptr = m ∧
    (mm.getSlot v2 s m).2.arrMetadata (ptrAdd m (slotOffset s)) = some ⟨0, false⟩ ∧
    MetaMap.occupied (mm.getSlot v2 s m).2.arrMetadata (ptrAdd m (slotOffset s)) = false ∧
    ptrAdd m (slotOffset s) = m + s * SLOT_SIZE ∧
    m + s * SLOT_SIZE + SLOT_SIZE ≤ m + PAGE_SIZE := by
  have hv : v2 < mm.virtualPages.length := getD_ne_null_lt _ _ hb
  rw [getSlot_conflict_acquired mm v2 s m ⟨v1, true⟩ hv hb hrec rfl hne hm.ne_failed hm.ne_null]
  refine ⟨rfl, rfl, ?_, getD_set_self _ _ _ _ hv, assign_self _ _ _, ?_,
    ptrAdd_slot m s hm.2.2.1 hs, ?_⟩
  · simp [MemoryManager.getPhysicalPages]
  · dsimp only
    rw [occupied_assign_self]
  · unfold SLOTS_PER_PAGE PAGE_SIZE SLOT_SIZE at hs
    unfold PAGE_SIZE SLOT_SIZE
    omega

set_option maxRecDepth 20000 in
/-- C19 at a concrete input: `getSlot(5, 0)` after `allocateSlot(0, 0)` on a
fresh manager, `mmap` returning page 8192. -/
theorem getSlot_conflict_mutates_witness :
    (((MemoryManager.init 4096).allocateSlot 0 0 8192).2.getSlot 5 0 8192).1 = nullptr ∧
    (((MemoryManager.init 4096).allocateSlot 0 0 8192).2.getSlot 5 0 8192).2.virtualPages.getD
      5 nullptr = 8192 := by
  have h := getSlot_conflict_mutates ((MemoryManager.init 4096).allocateSlot 0 0 8192).2
    0 5 0 8192
    (by rw [init_acquired 4096 (by decide)]; decide)
    (by rw [init_acquired 4096 (by decide)]; decide)
    (by decide)
    (by decide)
    (by rw [init_acquired 4096 (by decide)]; decide)
  exact ⟨h.1, h.2.2.2.1⟩

/-- C20 (`getSlot` is read-only when there is no conflict): in every state, if
`v` is not an index of the table, or `v` is unbound, or the candidate address
has no record, or its record is not occupied, or its record is owned by `v`,
then `getSlot(v, s)` leaves the whole state as it was: the tracked list, the
table, and the metadata map with its key set. -/
theorem getSlot_read_only (mm : MemoryManager) (v s m : Nat)
    (h : mm.virtualPages.length ≤ v ∨
      mm.virtualPages.getD v nullptr = nullptr ∨
      mm.arrMetadata (ptrAdd (mm.virtualPages.getD v nullptr) (slotOffset s)) = none ∨
      ∃ r, mm.arrMetadata (ptrAdd (mm.virtualPages.getD v nullptr) (slotOffset s)) = some r ∧
        (r.occupiedFlg = false ∨ r.virtualPageId = v)) :
    (mm.getSlot v s m).2 = mm := by
  rcases h with h | h | h | ⟨r, hr, h⟩
  · rw [getSlot_invalid mm v s m h]
  · rw [getSlot_unbound mm v s m h]
  · rw [getSlot_absent mm v s m h]
  · by_cases hb : mm.virtualPages.getD v nullptr = nullptr
    · rw [getSlot_unbound mm v s m hb]
    · rw [getSlot_noconflict mm v s m r (getD_ne_null_lt _ _ hb) hb hr h]

set_option maxRecDepth 20000 in
/-- C20 at a concrete input: Test 2 of `main.cpp`, `getSlot(0, 2)` on a fresh
manager, where the candidate address has no record. -/
theorem getSlot_read_only_witness :
    ((MemoryManager.init 4096).getSlot 0 2 8192).2 = MemoryManager.init 4096 :=
  getSlot_read_only (MemoryManager.init 4096) 0 2 8192
    (Or.inr (Or.inr (Or.inl (by rw [init_acquired 4096 (by decide)]))))


/-! ## Runs under the contract of `mmap` -/

/-- Every call has the shape of a step. -/
theorem exec_shape (mm : MemoryManager) (c : Call) (hc : MmapContract mm c.mmapRet) :
    ∃ v, StepShape mm (c.exec mm).2 v c.mmapRet := by
  cases c with
  | allocateSlot v s m => exact ⟨v, allocateSlot_shape mm v s m hc⟩
  | getSlot v s m => exact ⟨v, getSlot_shape mm v s m hc⟩

/-- Induction over a run under the contract: a property of states that every
call on a slot id satisfying `Q` preserves holds at the end of the run. -/
theorem run_induction (P : MemoryManager → Prop) (Q : Call → Prop)
    (hstep : ∀ mm c, P mm → Q c → MmapContract mm c.mmapRet → P (c.exec mm).2) :
    ∀ (cs : List Call) (mm : MemoryManager), P mm → Contracted mm cs →
      (∀ c ∈ cs, Q c) → P (run mm cs)
  | [], _, h, _, _ => h
  | c :: cs, mm, h, hrun, hq =>
    run_induction P Q hstep cs _
      (hstep mm c h (hq c (List.mem_cons_self _ _)) hrun.1) hrun.2
      (fun x hx => hq x (List.mem_cons_of_mem _ hx))

/-- A step keeps a bound entry bound. -/
theorem bound_of_shape {mm mm2 : MemoryManager} {v m : Nat} (hs : StepShape mm mm2 v m)
    (i : Nat) (hi : mm.virtualPages.getD i nullptr ≠ nullptr) :
    mm2.virtualPages.getD i nullptr ≠ nullptr := by
  rcases hs with ⟨hvp, _⟩ | ⟨hf, hv, hvp, _⟩
  · rw [hvp]; exact hi
  · rw [hvp]
    by_cases hiv : v = i
    · subst hiv
      rw [getD_set_self _ _ _ _ hv]; exact hf.1
    · rw [getD_set_ne _ _ _ _ _ hiv]; exact hi


/-! ## C17 -/

theorem init_all_bound (m0 : Nat) (h0 : FreshPage MemoryManager.empty m0) (i : Nat)
    (hi : i < INITIAL_VIRTUAL_PAGES) :
    (MemoryManager.init m0).virtualPages.getD i nullptr ≠ nullptr := by
  rw [init_acquired m0 h0.ne_failed]
  simp only [List.getD_eq_getElem?_getD, List.getElem?_replicate, hi, if_true,
    Option.getD_some]
  exact h0.1

/-- C17 (bindings stay tracked and are never removed): in every state reached
from a successful construction by `allocateSlot` / `getSlot` calls, `mmap`
succeeding or failing in each, every entry of the virtual page table is non-null
and is a member of the tracked list; and any further call leaves every bound
entry bound. -/
theorem bindings_stay_tracked (m0 : Nat) (cs : List Call)
    (h0 : FreshPage MemoryManager.empty m0)
    (hrun : Contracted (MemoryManager.init m0) cs) :
    (∀ i, i < (run (MemoryManager.init m0) cs).virtualPages.length →
      (run (MemoryManager.init m0) cs).virtualPages.getD i nullptr ≠ nullptr ∧
      (run (MemoryManager.init m0) cs).virtualPages.getD i nullptr
        ∈ (run (MemoryManager.init m0) cs).getPhysicalPages) ∧
    (∀ c : Call, MmapContract (run (MemoryManager.init m0) cs) c.mmapRet →
      ∀ i, (run (MemoryManager.init m0) cs).virtualPages.getD i nullptr ≠ nullptr →
        (c.exec (run (MemoryManager.init m0) cs)).2.virtualPages.getD i nullptr ≠ nullptr) := by
  have hinv := run_induction
    (fun mm => WellFormed mm ∧
      ∀ i, i < INITIAL_VIRTUAL_PAGES → mm.virtualPages.getD i nullptr ≠ nullptr)
    (fun _ => True)
    (fun mm c h _ hc => by
      obtain ⟨v, hs⟩ := exec_shape mm c hc
      exact ⟨h.1.of_shape hs, fun i hi => bound_of_shape hs i (h.2 i hi)⟩)
    cs (MemoryManager.init m0)
    ⟨wellFormed_init m0 (Or.inr h0), init_all_bound m0 h0⟩ hrun (fun _ _ => trivial)
  constructor
  · intro i hi
    rw [hinv.1.length_eq] at hi
    exact ⟨hinv.2 i hi, hinv.1.bound_tracked i (hinv.2 i hi)⟩
  · intro c hc i hi
    obtain ⟨v, hs⟩ := exec_shape _ c hc
    exact bound_of_shape hs i hi

set_option maxRecDepth 20000 in
/-- C17 at a concrete input: on a fresh manager on page 4096, after
`allocateSlot(0, 0)`, an `allocateSlot(5, 0)` that acquires page 8192, and a
`getSlot(7, 0)` whose acquisition fails, entry 5 of the table is bound to a
tracked page. -/
theorem bindings_stay_tracked_witness :
    (run (MemoryManager.init 4096) [Call.allocateSlot 0 0 8192,
      Call.allocateSlot 5 0 8192, Call.getSlot 7 0 MAP_FAILED]).virtualPages.getD 5 nullptr
      ≠ nullptr ∧
    (run (MemoryManager.init 4096) [Call.allocateSlot 0 0 8192,
      Call.allocateSlot 5 0 8192, Call.getSlot 7 0 MAP_FAILED]).virtualPages.getD 5 nullptr
      ∈ (run (MemoryManager.init 4096) [Call.allocateSlot 0 0 8192,
          Call.allocateSlot 5 0 8192, Call.getSlot 7 0 MAP_FAILED]).getPhysicalPages :=
  (bindings_stay_tracked 4096
    [Call.allocateSlot 0 0 8192, Call.allocateSlot 5 0 8192, Call.getSlot 7 0 MAP_FAILED]
    (by decide)
    (by rw [init_acquired 4096 (by decide)]; decide)).1 5
    (by rw [init_acquired 4096 (by decide)]; decide)

/-! ## C18 -/

theorem resolveConflict_physicalPages (mm : MemoryManager) (v s m : Nat) :
    (mm.resolveConflict v s m).physicalPages
      = if m = MAP_FAILED then mm.physicalPages else mm.physicalPages ++ [m] := by
  unfold MemoryManager.resolveConflict MemoryManager.allocatePhysicalPage
    MemoryManager.mapVirtualPageToPhysicalPage
  by_cases hm : m = MAP_FAILED
  · simp only [hm, if_true]
    split <;> rfl
  · simp only [hm, if_false]
    split <;> split <;> rfl

set_option maxRecDepth 20000 in
/-- C18 fails as stated: after `allocateSlot(0, 0)` on a fresh manager (page
4096), slot 0 of virtual page 5 is occupied by owner 0, so `allocateSlot(5, 0)`
and `getSlot(5, 0)` both run `resolveConflict(5, 0)`.  With `mmap` failing, that
conflict resolution leaves the tracked list `[4096]` as it was, and so do the
two calls: the count of distinct tracked pages stays at one. -/
theorem failed_resolution_keeps_count :
    Reachable ((MemoryManager.init 4096).allocateSlot 0 0 8192).2 ∧
    ((MemoryManager.init 4096).allocateSlot 0 0 8192).2.virtualPages.getD 5 nullptr = 4096 ∧
    ((MemoryManager.init 4096).allocateSlot 0 0 8192).2.arrMetadata 4096 = some ⟨0, true⟩ ∧
    ((MemoryManager.init 4096).allocateSlot 0 0 8192).2.getPhysicalPages = [4096] ∧
    (((MemoryManager.init 4096).allocateSlot 0 0 8192).2.resolveConflict 5 0
      MAP_FAILED).getPhysicalPages = [4096] ∧
    ¬ (distinctPageCount ((MemoryManager.init 4096).allocateSlot 0 0 8192).2
        < distinctPageCount
            (((MemoryManager.init 4096).allocateSlot 0 0 8192).2.resolveConflict 5 0 MAP_FAILED)) ∧
    (((MemoryManager.init 4096).allocateSlot 0 0 8192).2.allocateSlot 5 0
      MAP_FAILED).2.getPhysicalPages = [4096] ∧
    (((MemoryManager.init 4096).allocateSlot 0 0 8192).2.getSlot 5 0
      MAP_FAILED).2.getPhysicalPages = [4096] := by
  refine ⟨Reachable.allocateSlot _ 0 0 8192 (Reachable.init 4096 (by decide)) ?_, ?_⟩
  · rw [init_acquired 4096 (by decide)]; decide
  · rw [init_acquired 4096 (by decide)]; decide

/-- C18 as amended: in a reachable state, every `allocateSlot` / `getSlot` call,
`mmap` succeeding or failing, leaves the previous tracked list as a prefix of
the new one, and the new list has no repeated page; and every conflict
resolution whose acquisition succeeds, with the fresh page `m`, appends exactly
`m` and raises the count of distinct tracked pages by one. -/
theorem tracked_pages_only_grow (mm : MemoryManager) (hR : Reachable mm) :
    (∀ c : Call, MmapContract mm c.mmapRet →
      mm.getPhysicalPages <+: (c.exec mm).2.getPhysicalPages ∧
      (c.exec mm).2.getPhysicalPages.Nodup) ∧
    (∀ v s m, FreshPage mm m →
      (mm.resolveConflict v s m).getPhysicalPages = mm.getPhysicalPages ++ [m] ∧
      distinctPageCount (mm.resolveConflict v s m) = distinctPageCount mm + 1 ∧
      distinctPageCount mm < distinctPageCount (mm.resolveConflict v s m)) := by
  have hwf := hR.wellFormed
  constructor
  · intro c hc
    obtain ⟨v, hs⟩ := exec_shape mm c hc
    refine ⟨?_, (hwf.of_shape hs).pages_nodup⟩
    rcases hs with ⟨_, hpp⟩ | ⟨_, _, _, hpp⟩
    · unfold MemoryManager.getPhysicalPages; rw [hpp]
    · unfold MemoryManager.getPhysicalPages; rw [hpp]; exact List.prefix_append _ _
  · intro v s m hm
    have hpp : (mm.resolveConflict v s m).physicalPages = mm.physicalPages ++ [m] := by
      rw [resolveConflict_physicalPages, if_neg hm.ne_failed]
    have hnd : (mm.physicalPages ++ [m]).Nodup := by
      refine List.Nodup.append hwf.pages_nodup (List.nodup_singleton _) ?_
      intro x hx hx2
      rw [List.mem_singleton] at hx2
      subst hx2
      exact hm.2.2.2 hx
    have hcount : distinctPageCount (mm.resolveConflict v s m) = distinctPageCount mm + 1 := by
      unfold distinctPageCount
      rw [hpp, hnd.dedup, hwf.pages_nodup.dedup, List.length_append, List.length_singleton]
    exact ⟨hpp, hcount, by rw [hcount]; exact Nat.lt_succ_self _⟩

set_option maxRecDepth 20000 in
/-- The amended C18 at a concrete input: `resolveConflict(5, 0)` acquiring page
8192 after `allocateSlot(0, 0)` on a fresh manager. -/
theorem tracked_pages_only_grow_witness :
    (((MemoryManager.init 4096).allocateSlot 0 0 8192).2.resolveConflict 5 0 8192).getPhysicalPages
      = ((MemoryManager.init 4096).allocateSlot 0 0 8192).2.getPhysicalPages ++ [8192] :=
  ((tracked_pages_only_grow ((MemoryManager.init 4096).allocateSlot 0 0 8192).2
    (Reachable.allocateSlot _ 0 0 8192 (Reachable.init 4096 (by decide))
      (by rw [init_acquired 4096 (by decide)]; decide))).2 5 0 8192
    (by rw [init_acquired 4096 (by decide)]; decide)).1


/-! ## C16 -/

end SmartArray
